import Mathlib

/-!
# Verification of the weekly timesheet summary pipeline (`summary_mail/app.py`)

Shallow embedding of the schema-normalization, date-parsing, week-bucketing,
aggregation and rendering logic of `app.py`.  A pandas `DataFrame` is modelled
as an ordered list of named columns (`Frame`), a cell as a `Value`.  Calendar
dates are modelled as `Int` day numbers counted from the civil epoch
1970-01-01 (so Python `date.weekday()` with Monday = 0 is `(d + 3) % 7`,
1970-01-01 being a Thursday); `daysFromCivil`/`civilFromDays` convert between
day numbers and Gregorian `(year, month, day)` triples.

The string-parsing primitive of `pd.to_datetime` (month-first / day-first text
parsing) is an external pandas facility; it is abstracted as a parameter
`sp : StrDateParse` taking the `dayfirst` flag and the stripped text and
returning either a parsed instant `(day, secondsOfDay)` or `none` (`NaT`,
which is what `errors="coerce"` yields on failure).
-/

set_option autoImplicit false

/-- ASCII lower-casing of a string, modelling Python `str.lower()` on the
ASCII labels used by the program. -/
def lcStr (s : String) : String :=
  String.mk (s.toList.map Char.toLower)

/-- `listStartsWith n h` holds when `n` is a prefix of `h`. -/
def listStartsWith : List Char → List Char → Bool
  | [], _ => true
  | _ :: _, [] => false
  | a :: as, b :: bs => a == b && listStartsWith as bs

/-- `subListAt n h` holds when `n` occurs contiguously inside `h`. -/
def subListAt (n h : List Char) : Bool :=
  (List.range (h.length + 1)).any (fun i => listStartsWith n (h.drop i))

/-- Python's substring test `n in hay`. -/
def strContainsSub (hay n : String) : Bool :=
  subListAt n.toList hay.toList

/-- One cell of the spreadsheet.  `vDate` models the native date/time types
(`pd.Timestamp`, `datetime`, `np.datetime64`) as a day number plus a
seconds-past-midnight component; `vNaN` models a missing value (`NaN`/`NaT`). -/
inductive Value where
  | vDate (day : Int) (sec : Nat)
  | vNum (q : Rat)
  | vBool (b : Bool)
  | vStr (s : String)
  | vNaN
deriving DecidableEq, Repr

/-- A named column. -/
structure Col where
  name : String
  cells : List Value
deriving DecidableEq, Repr

/-- A data frame: an ordered list of named columns. -/
abbrev Frame := List Col

deriving instance DecidableEq for Except

/-- The column labels of a frame (`list(df.columns)`). -/
def colNames (df : Frame) : List String :=
  df.map (·.name)

/-- `n in df.columns`. -/
def hasCol (df : Frame) (n : String) : Bool :=
  df.any (fun c => c.name = n)

/-- `df[n]`: the first column labelled `n`, if any. -/
def getCol (df : Frame) (n : String) : Option Col :=
  df.find? (fun c => c.name = n)

/-- Number of rows of the frame (all columns of a well-formed frame have the
same length; an empty frame has zero rows). -/
def nRows : Frame → Nat
  | [] => 0
  | c :: _ => c.cells.length

/-- `df.rename(columns={old: tgt})`: every column labelled `old` is relabelled
`tgt`; a label that is absent is silently ignored (pandas default). -/
def renameCol (df : Frame) (old tgt : String) : Frame :=
  df.map (fun c => if c.name = old then { c with name := tgt } else c)

/-- The guarded renames of `normalize_schema`: `if found: df.rename(...)`. -/
def applyRename (df : Frame) (found : Option String) (tgt : String) : Frame :=
  match found with
  | some c => renameCol df c tgt
  | none => df

/-- `df[n] = cells`: replace the column if the label exists, else append it. -/
def setCol (df : Frame) (n : String) (cs : List Value) : Frame :=
  if hasCol df n then df.map (fun c => if c.name = n then ⟨n, cs⟩ else c)
  else df ++ [⟨n, cs⟩]

/-- `df[n] = v` with a scalar `v`: broadcast to one cell per row. -/
def setConstCol (df : Frame) (n : String) (v : Value) : Frame :=
  df ++ [⟨n, List.replicate (nRows df) v⟩]

/-- `if n not in df.columns: df[n] = v`. -/
def ensureCol (df : Frame) (n : String) (v : Value) : Frame :=
  if hasCol df n then df else setConstCol df n v

/-- Per-column cell transformation (`df[n] = f(df[n])`). -/
def mapCol (df : Frame) (n : String) (f : Value → Value) : Frame :=
  df.map (fun c => if c.name = n then ⟨c.name, c.cells.map f⟩ else c)

/- ---------- helper: column detection (`find_col`) ---------- -/

/-- `find_col(cols, needles)`: scan the columns in order; for each column,
try the needles in order against the lowercased label; return the first
column for which some needle is a substring. -/
def find_col : List String → List String → Option String
  | [], _ => none
  | c :: cs, needles =>
      if needles.any (fun n => strContainsSub (lcStr c) n) then some c
      else find_col cs needles

/-- Modelled from the spec: the Column Resolver as the spec words it, with the
needles of a field tried in priority order *outermost* — "the first needle in
the field's ordered list that matches some column wins".  Kept side by side
with `find_col` (the code's column-outermost scan) for comparison. -/
def find_col_needle_priority (cols needles : List String) : Option String :=
  needles.findSome? (fun n => cols.find? (fun c => strContainsSub (lcStr c) n))

/- ---------- needle tables of `normalize_schema` ---------- -/

def catNeedles : List String := ["category", "cat"]
def subNeedles : List String := ["sub-category", "subcategory", "sub category", "subcat"]
def lineNeedles : List String := ["line item", "line_item", "lineitem", "task", "activity", "li"]
def plannedLiNeedles : List String := ["planned li", "planned line", "planned items", "planned count", "planned"]
def actualLiNeedles : List String := ["actual li", "actual line", "actual items", "actual count", "actual"]
def plannedEffNeedles : List String := ["planned effort", "planned efforts", "planned mins", "planned minutes"]
def actualEffNeedles : List String := ["actual effort", "actual efforts", "actual mins", "actual minutes"]
def plannedDetNeedles : List String := ["planned details", "planned detail", "plan detail", "plan desc"]
def actualDetNeedles : List String := ["actual details", "actual detail", "actual desc"]

/-- The sequence of guarded renames of `normalize_schema`, in source order
(the date rename first; all `find_col` calls run against the *original*
column list `cols`, exactly as in the code). -/
def renamePlan (cols : List String) (date_col : String) : List (Option String × String) :=
  [(some date_col, "Date"),
   (find_col cols catNeedles, "Category"),
   (find_col cols subNeedles, "Subcategory"),
   (find_col cols lineNeedles, "Line Item"),
   (find_col cols plannedLiNeedles, "Planned LI"),
   (find_col cols actualLiNeedles, "Actual LI"),
   (find_col cols plannedEffNeedles, "Planned Efforts (mins)"),
   (find_col cols actualEffNeedles, "Actual Efforts (mins)"),
   (find_col cols plannedDetNeedles, "Planned Details"),
   (find_col cols actualDetNeedles, "Actual Details")]

/-- The "Ensure columns exist" block: canonical column, default value,
in source order. -/
def schemaDefaults : List (String × Value) :=
  [("Category", .vStr ""), ("Subcategory", .vStr ""), ("Line Item", .vStr ""),
   ("Planned LI", .vNum 0), ("Actual LI", .vNum 0),
   ("Planned Efforts (mins)", .vNum 0), ("Actual Efforts (mins)", .vNum 0),
   ("Planned Details", .vStr ""), ("Actual Details", .vStr "")]

def intCols : List String := ["Planned LI", "Actual LI"]
def floatCols : List String := ["Planned Efforts (mins)", "Actual Efforts (mins)"]
def strCols : List String := ["Category", "Subcategory", "Line Item", "Planned Details", "Actual Details"]

/- ---------- cell coercions (pandas primitives) ---------- -/

/-- Digit run to number. -/
def digitsToNat (ds : List Char) : Nat :=
  ds.foldl (fun a c => a * 10 + (c.toNat - 48)) 0

/-- Python `str.strip()`: drop whitespace from both ends (char-list based,
so it evaluates structurally). -/
def pyStrip (s : String) : String :=
  String.mk (((s.toList.dropWhile Char.isWhitespace).reverse.dropWhile
    Char.isWhitespace).reverse)

/-- Models `pd.to_numeric(..., errors="coerce")` on a text cell, for plain
optionally-signed decimal literals (the only shapes the pipeline meets);
anything else coerces to `NaN` (`none`). -/
def parseRatOfStr (s0 : String) : Option Rat :=
  let t0 := (pyStrip s0).toList
  let sgn : Rat := if t0.headD ' ' = '-' then -1 else 1
  let t := if t0.headD ' ' = '-' || t0.headD ' ' = '+' then t0.tail else t0
  let ip := t.takeWhile (·.isDigit)
  let rest := t.drop ip.length
  match rest with
  | [] => if ip.isEmpty then none else some (sgn * (digitsToNat ip : Rat))
  | '.' :: fr =>
      if fr.all (·.isDigit) && !(ip.isEmpty && fr.isEmpty) then
        some (sgn * ((digitsToNat ip : Rat) + (digitsToNat fr : Rat) / ((10 : Rat) ^ fr.length)))
      else none
  | _ => none

/-- `pd.to_numeric(cell, errors="coerce")`: numbers pass through, booleans
become 0/1, parsable text becomes a number, everything else becomes `NaN`. -/
def toNumericCoerce : Value → Option Rat
  | .vNum q => some q
  | .vBool b => some (if b then 1 else 0)
  | .vStr s => parseRatOfStr s
  | .vDate _ _ => none
  | .vNaN => none

/-- Truncation toward zero (numpy `astype(int)` on a float). -/
def truncRat (q : Rat) : Int :=
  if 0 ≤ q then q.floor else q.ceil

/-- `pd.to_numeric(col, errors="coerce").fillna(0).astype(int)` per cell. -/
def intCoerceVal (v : Value) : Value :=
  .vNum ((truncRat ((toNumericCoerce v).getD 0) : Int) : Rat)

/-- `pd.to_numeric(col, errors="coerce").fillna(0.0)` per cell. -/
def floatCoerceVal (v : Value) : Value :=
  .vNum ((toNumericCoerce v).getD 0)

/- ---------- calendar arithmetic ---------- -/

/-- Day number of the Gregorian date `(y, m, d)` relative to 1970-01-01
(Howard Hinnant's `days_from_civil`, written with floor division). -/
def daysFromCivil (y : Int) (m d : Int) : Int :=
  let yy := if m ≤ 2 then y - 1 else y
  let era := Int.ediv yy 400
  let yoe := yy - era * 400
  let mp := Int.emod (m + 9) 12
  let doy := Int.ediv (153 * mp + 2) 5 + d - 1
  let doe := yoe * 365 + Int.ediv yoe 4 - Int.ediv yoe 100 + doy
  era * 146097 + doe - 719468

/-- Gregorian `(year, month, day)` of a 1970-01-01-based day number
(Howard Hinnant's `civil_from_days`). -/
def civilFromDays (z0 : Int) : Int × Nat × Nat :=
  let z := z0 + 719468
  let era := Int.ediv z 146097
  let doe := (z - era * 146097).toNat
  let yoe := (doe - doe / 1460 + doe / 36524 - doe / 146096) / 365
  let y := (yoe : Int) + era * 400
  let doy := doe - (365 * yoe + yoe / 4 - yoe / 100)
  let mp := (5 * doy + 2) / 153
  let d := doy - (153 * mp + 2) / 5 + 1
  let m := if mp < 10 then mp + 3 else mp - 9
  (if m ≤ 2 then y + 1 else y, m, d)

/-- The spreadsheet serial epoch `origin="1899-12-30"`. -/
def excelEpoch : Int := daysFromCivil 1899 12 30

/-- First day representable by `pd.Timestamp` (1677-09-21). -/
def tsMinDay : Int := daysFromCivil 1677 9 21

/-- Last day representable by `pd.Timestamp` (2262-04-11). -/
def tsMaxDay : Int := daysFromCivil 2262 4 11

def pad2 (n : Nat) : String :=
  if n < 10 then "0" ++ toString n else "" ++ toString n

/-- `str()` of a Python `date`: `YYYY-MM-DD`. -/
def dateRepr (day : Int) : String :=
  let c := civilFromDays day
  toString c.1 ++ "-" ++ pad2 c.2.1 ++ "-" ++ pad2 c.2.2

/-- `str()` of a cell, as used by `astype(str)` and by the HTML renderer.
Missing values print as `"nan"`; numeric and date renderings approximate
Python's (the claims below only evaluate this on text and missing cells). -/
def strOfValue : Value → String
  | .vStr s => s
  | .vNaN => "nan"
  | .vBool b => if b then "True" else "False"
  | .vNum q => if q.den = 1 then toString q.num else toString q.num ++ "/" ++ toString q.den
  | .vDate day _ => dateRepr day

/-- `Series.fillna(w)` per cell. -/
def fillnaVal (w : Value) (v : Value) : Value :=
  if v = .vNaN then w else v

/-- `col.astype(str).fillna("")` per cell (the string-coercion loop). -/
def strCoerceVal (v : Value) : Value :=
  fillnaVal (.vStr "") (.vStr (strOfValue v))

/- ---------- `normalize_schema` ---------- -/

/-- `normalize_schema(df)`: detect the date column (mandatory), apply the
guarded renames against the original column list, add the missing canonical
columns with their defaults, then coerce the numeric and text columns. -/
def normalize_schema (df0 : Frame) : Except String Frame :=
  let cols := colNames df0
  match find_col cols ["date"] with
  | none => .error "No column containing 'date' found. Please include a Date column."
  | some date_col =>
    let df1 := (renamePlan cols date_col).foldl (fun d p => applyRename d p.1 p.2) df0
    let df2 := schemaDefaults.foldl (fun d p => ensureCol d p.1 p.2) df1
    let df3 := intCols.foldl (fun d n => mapCol d n intCoerceVal) df2
    let df4 := floatCols.foldl (fun d n => mapCol d n floatCoerceVal) df3
    let df5 := strCols.foldl (fun d n => mapCol d n strCoerceVal) df4
    .ok df5

/- ---------- robust date parsing (`parse_any_date`) ---------- -/

/-- Abstraction of `pd.to_datetime(s, errors="coerce", dayfirst=b)` on a
text value: given the `dayfirst` flag and the stripped text, produce the
parsed instant `(day, secondsOfDay)` or `none` (`NaT`). -/
def StrDateParse := Bool → String → Option (Int × Nat)

/-- The text branch of `parse_any_date`: strip, reject blank, month-first
parse, day-first retry, then `.normalize()` (truncate the time of day). -/
def parseText (sp : StrDateParse) (s0 : String) : Option Int :=
  let s := pyStrip s0
  if s = "" then none
  else
    match sp false s with
    | some dt => some dt.1
    | none =>
      match sp true s with
      | some dt => some dt.1
      | none => none

/-- `parse_any_date(val)`: `NaN` stays missing; native date/times are
truncated to the calendar date; non-boolean numbers are day serials from
`excelEpoch` (out-of-`Timestamp`-range serials coerce to `NaT`); booleans
(excluded from the numeric branch by `not isinstance(val, bool)`) and
strings go through the text branch. -/
def parse_any_date (sp : StrDateParse) : Value → Option Int
  | .vNaN => none
  | .vDate day _ => some day
  | .vNum q =>
      let d := excelEpoch + q.floor
      if tsMinDay ≤ d ∧ d ≤ tsMaxDay then some d else none
  | .vBool b => parseText sp (if b then "True" else "False")
  | .vStr s => parseText sp s

/- ---------- week helpers (`get_week_ranges`) ---------- -/

/-- Python `date.weekday()` (Monday = 0) on a 1970-01-01-based day number;
1970-01-01 was a Thursday. -/
def pyWeekday (d : Int) : Int :=
  (d + 3) % 7

/-- `get_week_ranges(today)`: current Monday–Sunday window and the next one. -/
def get_week_ranges (today : Int) : (Int × Int) × (Int × Int) :=
  let start_current := today - pyWeekday today
  let end_current := start_current + 6
  let start_next := end_current + 1
  let end_next := start_next + 6
  ((start_current, end_current), (start_next, end_next))

/-- The inclusive membership test `(d >= start) & (d <= end)`. -/
def inWindow (d : Int) (w : Int × Int) : Bool :=
  decide (w.1 ≤ d ∧ d ≤ w.2)

/- ---------- section builders ---------- -/

/-- The columns selected by `current_week_rows`, in source order. -/
def curCols : List String :=
  ["Date_only", "Category", "Subcategory", "Line Item",
   "Planned LI", "Actual LI", "LI Match",
   "Planned Efforts (mins)", "Actual Efforts (mins)", "Effort Δ (mins)",
   "Planned Details", "Actual Details"]

/-- The columns selected by `next_week_rows`, in source order. -/
def nextCols : List String :=
  ["Date_only", "Category", "Subcategory", "Line Item",
   "Planned LI", "Planned Efforts (mins)", "Planned Details"]

/-- The column schema of the deviation summary, in source order. -/
def devCols : List String :=
  ["Category", "Subcategory", "Line Item",
   "Planned LI", "Actual LI", "LI Δ",
   "Planned Efforts (mins)", "Actual Efforts (mins)", "Effort Δ (mins)", "Effort Δ %"]

/-- Numeric reading of a cell for arithmetic on effort columns (in the
pipeline these cells are always `vNum`). -/
def toRatV : Value → Rat
  | .vNum q => q
  | _ => 0

/-- Integer reading of a cell for the LI-count columns. -/
def toIntV : Value → Int
  | .vNum q => truncRat q
  | _ => 0

/-- The per-missing-column default of the section builders:
`"" if "Details" in c or "Category" in c else 0` (case-sensitive substring). -/
def defaultFor (c : String) : Value :=
  if strContainsSub c "Details" || strContainsSub c "Category" then .vStr "" else .vNum 0

/-- The `for c in cols: if c not in out.columns: out[c] = default` loop. -/
def ensureLoop (df : Frame) (ns : List String) : Frame :=
  ns.foldl (fun d c => if hasCol d c then d else setCol d c (List.replicate (nRows d) (defaultFor c))) df

/-- `out[cols]`: select (and reorder) the named columns. -/
def selectCols (df : Frame) (ns : List String) : Frame :=
  ns.filterMap (fun n => getCol df n)

/-- `current_week_rows(df)`: add the `LI Match` flag and the effort delta,
then select the report columns (missing ones defaulted).  Reading an absent
`Planned LI` / `Actual LI` / effort column is a `KeyError` in Python,
modelled as `.error`. -/
def current_week_rows (df : Frame) : Except String Frame :=
  match getCol df "Planned LI", getCol df "Actual LI" with
  | some pli, some ali =>
    let df' := setCol df "LI Match"
      (List.zipWith (fun a b => Value.vStr (if a = b then "Match" else "Mismatch")) pli.cells ali.cells)
    match getCol df' "Actual Efforts (mins)", getCol df' "Planned Efforts (mins)" with
    | some ae, some pe =>
      let df'' := setCol df' "Effort Δ (mins)"
        (List.zipWith (fun a b => Value.vNum (toRatV a - toRatV b)) ae.cells pe.cells)
      .ok (selectCols (ensureLoop df'' curCols) curCols)
    | _, _ => .error "KeyError"
  | _, _ => .error "KeyError"

/-- `next_week_rows(df)`: select the planning columns only. -/
def next_week_rows (df : Frame) : Frame :=
  selectCols (ensureLoop df nextCols) nextCols

/- ---------- deviation summary ---------- -/

/-- One canonical record, as read row-wise out of the current-week frame for
grouping. -/
structure GroupRec where
  cat : Value
  sub : Value
  li : Value
  pLI : Int
  aLI : Int
  pEff : Rat
  aEff : Rat
deriving DecidableEq, Repr

/-- One output row of the deviation summary. -/
structure DevRow where
  cat : Value
  sub : Value
  li : Value
  pLI : Int
  aLI : Int
  liD : Int
  pEff : Rat
  aEff : Rat
  effD : Rat
  pct : Rat
deriving DecidableEq, Repr

/-- Round half-to-even to an integer (numpy/pandas rounding on exact
values). -/
def roundHalfEven (q : Rat) : Int :=
  let f := q.floor
  let r := q - f
  if r < 1 / 2 then f
  else if 1 / 2 < r then f + 1
  else if f % 2 = 0 then f else f + 1

/-- `Series.round(n)`: round to `n` decimal places. -/
def roundTo (n : Nat) (q : Rat) : Rat :=
  (roundHalfEven (q * (10 : Rat) ^ n) : Rat) / (10 : Rat) ^ n

/-- Row-wise extraction of the grouping and aggregation columns
(`KeyError` if one is missing). -/
def frameRecs (df : Frame) : Except String (List GroupRec) :=
  match getCol df "Category", getCol df "Subcategory", getCol df "Line Item",
        getCol df "Planned LI", getCol df "Actual LI",
        getCol df "Planned Efforts (mins)", getCol df "Actual Efforts (mins)" with
  | some c, some s, some l, some p, some a, some pe, some ae =>
      .ok ((List.range (nRows df)).map (fun i =>
        { cat := (c.cells.get? i).getD .vNaN
          sub := (s.cells.get? i).getD .vNaN
          li := (l.cells.get? i).getD .vNaN
          pLI := toIntV ((p.cells.get? i).getD .vNaN)
          aLI := toIntV ((a.cells.get? i).getD .vNaN)
          pEff := toRatV ((pe.cells.get? i).getD .vNaN)
          aEff := toRatV ((ae.cells.get? i).getD .vNaN) }))
  | _, _, _, _, _, _, _ => .error "KeyError"

/-- The `(Category, Subcategory, Line Item)` grouping key of a record. -/
def devKey (r : GroupRec) : Value × Value × Value :=
  (r.cat, r.sub, r.li)

/-- Lexicographic order on grouping keys via their string rendering
(`groupby` sorts the group keys; in the pipeline the keys are the
text cells produced by `normalize_schema`). -/
def keyLeB (a b : Value × Value × Value) : Bool :=
  match compare (strOfValue a.1) (strOfValue b.1) with
  | .lt => true
  | .gt => false
  | .eq =>
    match compare (strOfValue a.2.1) (strOfValue b.2.1) with
    | .lt => true
    | .gt => false
    | .eq => compare (strOfValue a.2.2) (strOfValue b.2.2) ≠ .gt

def insKey (k : Value × Value × Value) : List (Value × Value × Value) → List (Value × Value × Value)
  | [] => [k]
  | k' :: ks => if keyLeB k k' then k :: k' :: ks else k' :: insKey k ks

def sortKeys (ks : List (Value × Value × Value)) : List (Value × Value × Value) :=
  ks.foldr insKey []

/-- `groupby(["Category","Subcategory","Line Item"], dropna=False).agg(sum)`
followed by the delta and percentage columns and the rounding of
`Effort Δ (mins)` (2 places) and `Effort Δ %` (1 place).  The percentage is
`EffortΔ / planned * 100` when the summed planned minutes are truthy
(nonzero), else `0.0`. -/
def devRows (recs : List GroupRec) : List DevRow :=
  let keys := sortKeys ((recs.map devKey).dedup)
  keys.map (fun k =>
    let grp := recs.filter (fun r => devKey r = k)
    let pli := (grp.map (·.pLI)).sum
    let ali := (grp.map (·.aLI)).sum
    let pe := (grp.map (·.pEff)).sum
    let ae := (grp.map (·.aEff)).sum
    let effD := ae - pe
    { cat := k.1, sub := k.2.1, li := k.2.2
      pLI := pli, aLI := ali, liD := ali - pli
      pEff := pe, aEff := ae
      effD := roundTo 2 effD
      pct := roundTo 1 (if pe ≠ 0 then effD / pe * 100 else 0) })

/-- Reassemble the deviation rows into the 10-column output frame. -/
def devFrame (rows : List DevRow) : Frame :=
  [⟨"Category", rows.map (·.cat)⟩,
   ⟨"Subcategory", rows.map (·.sub)⟩,
   ⟨"Line Item", rows.map (·.li)⟩,
   ⟨"Planned LI", rows.map (fun r => Value.vNum r.pLI)⟩,
   ⟨"Actual LI", rows.map (fun r => Value.vNum r.aLI)⟩,
   ⟨"LI Δ", rows.map (fun r => Value.vNum r.liD)⟩,
   ⟨"Planned Efforts (mins)", rows.map (fun r => Value.vNum r.pEff)⟩,
   ⟨"Actual Efforts (mins)", rows.map (fun r => Value.vNum r.aEff)⟩,
   ⟨"Effort Δ (mins)", rows.map (fun r => Value.vNum r.effD)⟩,
   ⟨"Effort Δ %", rows.map (fun r => Value.vNum r.pct)⟩]

/-- `deviation_summary(df)`: an empty input yields the empty frame that still
carries the full column schema; otherwise group, aggregate and derive. -/
def deviation_summary (df : Frame) : Except String Frame :=
  if nRows df = 0 then .ok (devCols.map (fun n => ⟨n, []⟩))
  else (frameRecs df).map (fun recs => devFrame (devRows recs))

/- ---------- HTML helpers ---------- -/

/-- `html_table(df, empty_msg)`: an empty frame renders as the highlighted
no-data placeholder `div`; otherwise a header row plus one `tr` per row with
alternating backgrounds. -/
def html_table (df : Frame) (empty_msg : String) : String :=
  if nRows df = 0 then
    "<div style='padding:10px;background:#fff8f0;border-radius:6px;color:#92400e'>" ++ empty_msg ++ "</div>"
  else
    let thead := String.join (df.map (fun c =>
      "<th style='padding:8px;text-align:left;border-bottom:1px solid #e6eefb'>" ++ c.name ++ "</th>"))
    let rowsHtml := String.join ((List.range (nRows df)).map (fun i =>
      let bg := if i % 2 = 0 then "#ffffff" else "#f8fafc"
      let tds := String.join (df.map (fun c =>
        "<td style='padding:8px;border-bottom:1px solid #f1f5f9'>" ++ strOfValue ((c.cells.get? i).getD .vNaN) ++ "</td>"))
      "<tr style='background:" ++ bg ++ "'>" ++ tds ++ "</tr>"))
    "<table style='width:100%;border-collapse:collapse;font:13px Arial,Helvetica'>" ++
      "<thead><tr>" ++ thead ++ "</tr></thead>" ++ "<tbody>" ++ rowsHtml ++ "</tbody></table>"

/- ---------- the upload pipeline (`upload_timesheet` core) ---------- -/

/-- `maskFilter m xs` keeps the elements of `xs` whose mask entry is `true`
(the row filtering of `dropna` / boolean indexing). -/
def maskFilter : List Bool → List Value → List Value
  | b :: bs, v :: vs => if b then v :: maskFilter bs vs else maskFilter bs vs
  | _, _ => []

/-- The parsed-date column cell: a parsed day or `NaT`. -/
def optDateVal (o : Option Int) : Value :=
  match o with
  | some d => .vDate d 0
  | none => .vNaN

/-- The date-handling slice of `upload_timesheet` (lines 235–242): parse the
`Date` column cell-wise, reject the upload when *no* cell parsed, otherwise
attach `Date_parsed` / `Date_only` and drop exactly the rows whose date did
not parse. -/
def process_dates (sp : StrDateParse) (df : Frame) : Except String Frame :=
  match getCol df "Date" with
  | none => .error "KeyError"
  | some dcol =>
    let parsed := dcol.cells.map (parse_any_date sp)
    if parsed.all (·.isNone) then .error "No parsable dates found in 'Date' column"
    else
      let mask := parsed.map (·.isSome)
      let withP := setCol df "Date_parsed" (parsed.map optDateVal)
      let withO := setCol withP "Date_only" (parsed.map optDateVal)
      .ok (withO.map (fun c => ⟨c.name, maskFilter mask c.cells⟩))

/-- Membership of a `Date_only` cell in a week window. -/
def inWindowV (v : Value) (w : Int × Int) : Bool :=
  match v with
  | .vDate d _ => inWindow d w
  | _ => false

/-- `df[(df["Date_only"] >= start) & (df["Date_only"] <= end)]`. -/
def filterWindow (df : Frame) (w : Int × Int) : Except String Frame :=
  match getCol df "Date_only" with
  | none => .error "KeyError"
  | some dc =>
    let mask := dc.cells.map (fun v => inWindowV v w)
    .ok (df.map (fun c => ⟨c.name, maskFilter mask c.cells⟩))

/-- The full report pipeline of `upload_timesheet` after the file is loaded:
normalize the schema, resolve the dates, bucket into the two week windows and
build the three report views.  Any failure short-circuits: nothing downstream
of a failing stage runs. -/
def run_report (sp : StrDateParse) (df0 : Frame) (today : Int) :
    Except String (Frame × Frame × Frame) := do
  let df ← normalize_schema df0
  let dated ← process_dates sp df
  let cur ← filterWindow dated (get_week_ranges today).1
  let nxt ← filterWindow dated (get_week_ranges today).2
  let curStats ← current_week_rows cur
  let nxtPlan := next_week_rows nxt
  let devSum ← deviation_summary cur
  return (curStats, nxtPlan, devSum)

/- ---------- concrete frames used in the theorems below ---------- -/

/-- A text-date parser instance that parses nothing (all the concrete sheets
below carry native dates or serials in their parsable rows). -/
def sp0 : StrDateParse := fun _ _ => none

/-- The end-to-end scenario sheet of the spec, with one data row:
columns `Activity Date`, `Cat`, `Task`, `Plan Count`, `Done Count`,
`Plan Mins`, `Done Mins`. -/
def scenarioDf : Frame :=
  [⟨"Activity Date", [.vStr "2025-01-06"]⟩,
   ⟨"Cat", [.vStr "C1"]⟩,
   ⟨"Task", [.vStr "T1"]⟩,
   ⟨"Plan Count", [.vNum 3]⟩,
   ⟨"Done Count", [.vNum 2]⟩,
   ⟨"Plan Mins", [.vNum 60]⟩,
   ⟨"Done Mins", [.vNum 45]⟩]

/-- What `normalize_schema` actually produces for `scenarioDf`: only
`Activity Date` → `Date` and `Cat` → `Category` resolve; `Task`,
`Plan Count`, `Done Count`, `Plan Mins`, `Done Mins` are left untouched and
every remaining canonical column is the default. -/
def scenarioOut : Frame :=
  [⟨"Date", [.vStr "2025-01-06"]⟩,
   ⟨"Category", [.vStr "C1"]⟩,
   ⟨"Task", [.vStr "T1"]⟩,
   ⟨"Plan Count", [.vNum 3]⟩,
   ⟨"Done Count", [.vNum 2]⟩,
   ⟨"Plan Mins", [.vNum 60]⟩,
   ⟨"Done Mins", [.vNum 45]⟩,
   ⟨"Subcategory", [.vStr ""]⟩,
   ⟨"Line Item", [.vStr ""]⟩,
   ⟨"Planned LI", [.vNum 0]⟩,
   ⟨"Actual LI", [.vNum 0]⟩,
   ⟨"Planned Efforts (mins)", [.vNum 0]⟩,
   ⟨"Actual Efforts (mins)", [.vNum 0]⟩,
   ⟨"Planned Details", [.vStr ""]⟩,
   ⟨"Actual Details", [.vStr ""]⟩]

/-- The column contents the spec's scenario sentence claims for the
normalized sheet: `Task` data in `Line Item`, `Plan Count` in `Planned LI`,
`Done Count` in `Actual LI`, `Plan Mins` / `Done Mins` in the two effort
columns. -/
def scenarioClaimedCols (out : Frame) : Bool :=
  getCol out "Line Item" == some ⟨"Line Item", [.vStr "T1"]⟩ &&
  getCol out "Planned LI" == some ⟨"Planned LI", [.vNum 3]⟩ &&
  getCol out "Actual LI" == some ⟨"Actual LI", [.vNum 2]⟩ &&
  getCol out "Planned Efforts (mins)" == some ⟨"Planned Efforts (mins)", [.vNum 60]⟩ &&
  getCol out "Actual Efforts (mins)" == some ⟨"Actual Efforts (mins)", [.vNum 45]⟩

/-- A sheet whose `Date` column has no parsable cell (under `sp0`). -/
def allBadDf : Frame := [⟨"Date", [.vStr "??", .vNaN]⟩]

/-- `normalize_schema allBadDf`. -/
def allBadNorm : Frame :=
  [⟨"Date", [.vStr "??", .vNaN]⟩,
   ⟨"Category", [.vStr "", .vStr ""]⟩,
   ⟨"Subcategory", [.vStr "", .vStr ""]⟩,
   ⟨"Line Item", [.vStr "", .vStr ""]⟩,
   ⟨"Planned LI", [.vNum 0, .vNum 0]⟩,
   ⟨"Actual LI", [.vNum 0, .vNum 0]⟩,
   ⟨"Planned Efforts (mins)", [.vNum 0, .vNum 0]⟩,
   ⟨"Actual Efforts (mins)", [.vNum 0, .vNum 0]⟩,
   ⟨"Planned Details", [.vStr "", .vStr ""]⟩,
   ⟨"Actual Details", [.vStr "", .vStr ""]⟩]

/-- A sheet with five parsable dates and one malformed date string. -/
def mixedDf : Frame :=
  [⟨"Date", [.vDate 20400 0, .vDate 20401 0, .vStr "not-a-date",
             .vDate 20402 0, .vNum 45000, .vDate 20409 0]⟩]

/-- `normalize_schema mixedDf`. -/
def mixedNorm : Frame :=
  [⟨"Date", [.vDate 20400 0, .vDate 20401 0, .vStr "not-a-date",
             .vDate 20402 0, .vNum 45000, .vDate 20409 0]⟩,
   ⟨"Category", List.replicate 6 (.vStr "")⟩,
   ⟨"Subcategory", List.replicate 6 (.vStr "")⟩,
   ⟨"Line Item", List.replicate 6 (.vStr "")⟩,
   ⟨"Planned LI", List.replicate 6 (.vNum 0)⟩,
   ⟨"Actual LI", List.replicate 6 (.vNum 0)⟩,
   ⟨"Planned Efforts (mins)", List.replicate 6 (.vNum 0)⟩,
   ⟨"Actual Efforts (mins)", List.replicate 6 (.vNum 0)⟩,
   ⟨"Planned Details", List.replicate 6 (.vStr "")⟩,
   ⟨"Actual Details", List.replicate 6 (.vStr "")⟩]

/-- A sheet with no date-like column. -/
def noDateDf : Frame := [⟨"Foo", [.vNum 1]⟩]

/-- A sheet with only a date column (every optional field unresolved). -/
def dateOnlyDf : Frame := [⟨"Date", [.vStr "x"]⟩]

/-- An empty filtered record set carrying the schema the pipeline produces
(all canonical columns plus the date columns, zero rows). -/
def emptyCurDf : Frame :=
  [⟨"Date", []⟩, ⟨"Category", []⟩, ⟨"Subcategory", []⟩, ⟨"Line Item", []⟩,
   ⟨"Planned LI", []⟩, ⟨"Actual LI", []⟩,
   ⟨"Planned Efforts (mins)", []⟩, ⟨"Actual Efforts (mins)", []⟩,
   ⟨"Planned Details", []⟩, ⟨"Actual Details", []⟩,
   ⟨"Date_parsed", []⟩, ⟨"Date_only", []⟩]

/-- A record with zero planned minutes and five actual minutes. -/
def zeroPlanRec : GroupRec :=
  { cat := .vStr "Cat1", sub := .vStr "", li := .vStr "Item1",
    pLI := 1, aLI := 1, pEff := 0, aEff := 5 }

/-- The deviation row the summary produces for `[zeroPlanRec]`. -/
def zeroPlanRow : DevRow :=
  { cat := .vStr "Cat1", sub := .vStr "", li := .vStr "Item1",
    pLI := 1, aLI := 1, liD := 0, pEff := 0, aEff := 5, effD := 5, pct := 0 }

/-- The rational 3/2, written in lowest terms (used as a fractional day
serial below). -/
def q32 : Rat := ⟨3, 2, by decide, by decide⟩

/- ---------- helper lemmas: column detection ---------- -/

theorem find_col_eq_find? (cols needles : List String) :
    find_col cols needles
      = cols.find? (fun c => needles.any (fun n => strContainsSub (lcStr c) n)) := by
  induction cols with
  | nil => rfl
  | cons c cs ih =>
      by_cases h : (needles.any fun n => strContainsSub (lcStr c) n) = true
      · simp [find_col, h]
      · simp only [Bool.not_eq_true] at h
        simp [find_col, h, ih]

theorem find_col_eq_none_iff (cols needles : List String) :
    find_col cols needles = none
      ↔ ∀ c ∈ cols, (needles.any fun n => strContainsSub (lcStr c) n) = false := by
  rw [find_col_eq_find?, List.find?_eq_none]
  simp

/- ---------- helper lemmas: frame operations ---------- -/

theorem getCol_name {df : Frame} {n : String} {c : Col} (h : getCol df n = some c) :
    c.name = n := by
  have h2 := List.find?_some h
  simpa using h2

theorem mem_of_getCol {df : Frame} {n : String} {c : Col} (h : getCol df n = some c) :
    c ∈ df :=
  List.mem_of_find?_eq_some h

theorem hasCol_iff_mem_colNames {df : Frame} {n : String} :
    hasCol df n = true ↔ n ∈ colNames df := by
  simp only [hasCol, colNames, List.any_eq_true, List.mem_map, decide_eq_true_eq]

theorem getCol_eq_none_of_not_hasCol {df : Frame} {n : String} (h : hasCol df n = false) :
    getCol df n = none := by
  rw [getCol, List.find?_eq_none]
  intro c hc
  simp only [hasCol, List.any_eq_false, decide_eq_true_eq] at h
  simpa using h c hc

theorem getCol_isSome_of_hasCol {df : Frame} {n : String} (h : hasCol df n = true) :
    ∃ c, getCol df n = some c := by
  simp only [hasCol, List.any_eq_true] at h
  obtain ⟨c, hc, e⟩ := h
  have : (getCol df n).isSome := by
    rw [getCol, List.find?_isSome]
    exact ⟨c, hc, e⟩
  exact Option.isSome_iff_exists.mp this

theorem mem_colNames_renameCol {df : Frame} {old tgt s : String}
    (h : s ∈ colNames (renameCol df old tgt)) : s = tgt ∨ s ∈ colNames df := by
  simp only [colNames, renameCol, List.map_map, List.mem_map, Function.comp] at h
  obtain ⟨c, hc, e⟩ := h
  by_cases hn : c.name = old
  · simp only [hn, if_pos rfl] at e
    exact Or.inl e.symm
  · simp only [if_neg hn] at e
    exact Or.inr (by simpa [colNames] using ⟨c, hc, e⟩)

theorem mem_colNames_applyRename {df : Frame} {o : Option String} {tgt s : String}
    (h : s ∈ colNames (applyRename df o tgt)) :
    (o ≠ none ∧ s = tgt) ∨ s ∈ colNames df := by
  cases o with
  | none => exact Or.inr h
  | some c0 =>
      rcases mem_colNames_renameCol h with e | m
      · exact Or.inl ⟨by simp, e⟩
      · exact Or.inr m

theorem mem_colNames_renameFold :
    ∀ (plan : List (Option String × String)) (df : Frame) {s : String},
      s ∈ colNames (plan.foldl (fun d p => applyRename d p.1 p.2) df) →
      (∃ p ∈ plan, p.1 ≠ none ∧ p.2 = s) ∨ s ∈ colNames df := by
  intro plan
  induction plan with
  | nil => intro df s h; exact Or.inr h
  | cons p ps ih =>
      intro df s h
      rcases ih (applyRename df p.1 p.2) h with h' | h'
      · obtain ⟨q, hq, e⟩ := h'
        exact Or.inl ⟨q, List.mem_cons_of_mem _ hq, e⟩
      · rcases mem_colNames_applyRename h' with e | h''
        · exact Or.inl ⟨p, List.mem_cons_self _ _, e.1, e.2.symm⟩
        · exact Or.inr h''

theorem nRows_renameCol (df : Frame) (old tgt : String) :
    nRows (renameCol df old tgt) = nRows df := by
  cases df with
  | nil => rfl
  | cons c cs =>
      simp only [renameCol, List.map_cons, nRows]
      split <;> rfl

theorem nRows_applyRename (df : Frame) (o : Option String) (tgt : String) :
    nRows (applyRename df o tgt) = nRows df := by
  cases o with
  | none => rfl
  | some c0 => exact nRows_renameCol df c0 tgt

theorem nRows_renameFold :
    ∀ (plan : List (Option String × String)) (df : Frame),
      nRows (plan.foldl (fun d p => applyRename d p.1 p.2) df) = nRows df := by
  intro plan
  induction plan with
  | nil => intro df; rfl
  | cons p ps ih =>
      intro df
      rw [List.foldl_cons, ih, nRows_applyRename]

theorem nRows_ensureCol (df : Frame) (n : String) (v : Value) :
    nRows (ensureCol df n v) = nRows df := by
  unfold ensureCol setConstCol
  split
  · rfl
  · cases df with
    | nil => simp [nRows]
    | cons c cs => rfl

theorem hasCol_ensureCol_self (df : Frame) (n : String) (v : Value) :
    hasCol (ensureCol df n v) n = true := by
  unfold ensureCol setConstCol
  split
  · assumption
  · simp [hasCol]

theorem hasCol_ensureCol_of_ne (df : Frame) {m n : String} (w : Value) (hne : m ≠ n) :
    hasCol (ensureCol df m w) n = hasCol df n := by
  unfold ensureCol setConstCol
  split
  · rfl
  · simp [hasCol, List.any_append, hne]

theorem hasCol_ensureCol_mono (df : Frame) {n : String} (h : hasCol df n = true)
    (m : String) (w : Value) : hasCol (ensureCol df m w) n = true := by
  unfold ensureCol setConstCol
  split
  · exact h
  · simp only [hasCol, List.any_append, Bool.or_eq_true]
    exact Or.inl h

theorem getCol_ensureCol_of_ne (df : Frame) {m n : String} (w : Value) (hne : m ≠ n) :
    getCol (ensureCol df m w) n = getCol df n := by
  unfold ensureCol setConstCol
  split
  · rfl
  · rw [getCol, List.find?_append]
    have h2 : List.find? (fun c => decide (c.name = n)) [(⟨m, List.replicate (nRows df) w⟩ : Col)] = none := by
      simp [List.find?, hne]
    rw [h2]
    simp [getCol]

theorem getCol_ensureCol_self (df : Frame) {n : String} (v : Value)
    (h : hasCol df n = false) :
    getCol (ensureCol df n v) n = some ⟨n, List.replicate (nRows df) v⟩ := by
  unfold ensureCol setConstCol
  rw [h]
  simp only [Bool.false_eq_true, if_false]
  rw [getCol, List.find?_append]
  have h0 : getCol df n = none := getCol_eq_none_of_not_hasCol h
  rw [getCol] at h0
  rw [h0]
  simp [List.find?]

theorem ensure_fold_nRows :
    ∀ (ds : List (String × Value)) (df : Frame),
      nRows (ds.foldl (fun d p => ensureCol d p.1 p.2) df) = nRows df := by
  intro ds
  induction ds with
  | nil => intro df; rfl
  | cons p ps ih => intro df; rw [List.foldl_cons, ih, nRows_ensureCol]

theorem ensure_fold_getCol_of_notMem :
    ∀ (ds : List (String × Value)) (df : Frame) {n : String},
      n ∉ ds.map Prod.fst →
      getCol (ds.foldl (fun d p => ensureCol d p.1 p.2) df) n = getCol df n := by
  intro ds
  induction ds with
  | nil => intro df n _; rfl
  | cons p ps ih =>
      intro df n hn
      simp only [List.map_cons, List.mem_cons, not_or] at hn
      rw [List.foldl_cons, ih _ hn.2, getCol_ensureCol_of_ne df p.2 (fun e => hn.1 e.symm)]

theorem ensure_fold_hasCol_of_notMem :
    ∀ (ds : List (String × Value)) (df : Frame) {n : String},
      n ∉ ds.map Prod.fst →
      hasCol (ds.foldl (fun d p => ensureCol d p.1 p.2) df) n = hasCol df n := by
  intro ds
  induction ds with
  | nil => intro df n _; rfl
  | cons p ps ih =>
      intro df n hn
      simp only [List.map_cons, List.mem_cons, not_or] at hn
      rw [List.foldl_cons, ih _ hn.2, hasCol_ensureCol_of_ne df p.2 (fun e => hn.1 e.symm)]

theorem ensure_fold_hasCol_mono :
    ∀ (ds : List (String × Value)) (df : Frame) {n : String},
      hasCol df n = true →
      hasCol (ds.foldl (fun d p => ensureCol d p.1 p.2) df) n = true := by
  intro ds
  induction ds with
  | nil => intro df n h; exact h
  | cons p ps ih =>
      intro df n h
      rw [List.foldl_cons]
      exact ih _ (hasCol_ensureCol_mono df h p.1 p.2)

theorem ensure_fold_hasCol_of_mem :
    ∀ (ds : List (String × Value)) (df : Frame) {n : String},
      n ∈ ds.map Prod.fst →
      hasCol (ds.foldl (fun d p => ensureCol d p.1 p.2) df) n = true := by
  intro ds
  induction ds with
  | nil => intro df n h; simp at h
  | cons p ps ih =>
      intro df n h
      rw [List.foldl_cons]
      by_cases hm : n ∈ ps.map Prod.fst
      · exact ih _ hm
      · simp only [List.map_cons, List.mem_cons] at h
        rcases h with h | h
        · subst h
          exact ensure_fold_hasCol_mono ps _ (hasCol_ensureCol_self df p.1 p.2)
        · exact absurd h hm

theorem ensure_fold_getCol_of_mem :
    ∀ (ds : List (String × Value)) (df : Frame) {n : String} {v : Value},
      (n, v) ∈ ds → (ds.map Prod.fst).Nodup → hasCol df n = false →
      getCol (ds.foldl (fun d p => ensureCol d p.1 p.2) df) n
        = some ⟨n, List.replicate (nRows df) v⟩ := by
  intro ds
  induction ds with
  | nil => intro df n v h; simp at h
  | cons p ps ih =>
      intro df n v hmem hnd habs
      simp only [List.map_cons, List.nodup_cons] at hnd
      rw [List.foldl_cons]
      rcases List.mem_cons.mp hmem with h | h
      · have hp1 : p.1 = n := by rw [← h]
        have hp2 : p.2 = v := by rw [← h]
        subst hp1; subst hp2
        have hnotmem : p.1 ∉ ps.map Prod.fst := hnd.1
        rw [ensure_fold_getCol_of_notMem ps _ hnotmem]
        exact getCol_ensureCol_self df p.2 habs
      · have hne : p.1 ≠ n := by
          intro e
          exact hnd.1 (e ▸ (List.mem_map.mpr ⟨(n, v), h, rfl⟩))
        have habs' : hasCol (ensureCol df p.1 p.2) n = false := by
          rw [hasCol_ensureCol_of_ne df p.2 hne]; exact habs
        rw [ih _ h hnd.2 habs', nRows_ensureCol]

theorem getCol_mapCol (df : Frame) (m n : String) (f : Value → Value) :
    getCol (mapCol df m f) n
      = (getCol df n).map (fun c => if c.name = m then ⟨c.name, c.cells.map f⟩ else c) := by
  unfold getCol mapCol
  rw [List.find?_map]
  have hp : ((fun c : Col => decide (c.name = n)) ∘
      (fun c : Col => if c.name = m then (⟨c.name, c.cells.map f⟩ : Col) else c))
        = fun c : Col => decide (c.name = n) := by
    funext c
    by_cases h : c.name = m <;> simp [h]
  rw [hp]

theorem getCol_mapCol_of_ne (df : Frame) {m n : String} (f : Value → Value) (hne : m ≠ n) :
    getCol (mapCol df m f) n = getCol df n := by
  rw [getCol_mapCol]
  cases hc : getCol df n with
  | none => rfl
  | some c =>
      have hcn := getCol_name hc
      simp [hcn, Ne.symm hne]

theorem hasCol_mapCol (df : Frame) (m : String) (f : Value → Value) (n : String) :
    hasCol (mapCol df m f) n = hasCol df n := by
  unfold hasCol mapCol
  rw [List.any_map]
  congr 1
  funext c
  by_cases h : c.name = m <;> simp [h]

theorem nRows_mapCol (df : Frame) (m : String) (f : Value → Value) :
    nRows (mapCol df m f) = nRows df := by
  cases df with
  | nil => rfl
  | cons c cs =>
      simp only [mapCol, List.map_cons, nRows]
      split <;> simp

theorem map_fold_getCol_of_notMem (f : Value → Value) :
    ∀ (ns : List String) (df : Frame) {n : String},
      n ∉ ns →
      getCol (ns.foldl (fun d m => mapCol d m f) df) n = getCol df n := by
  intro ns
  induction ns with
  | nil => intro df n _; rfl
  | cons m ms ih =>
      intro df n hn
      simp only [List.mem_cons, not_or] at hn
      rw [List.foldl_cons, ih _ hn.2, getCol_mapCol_of_ne df f (fun e => hn.1 e.symm)]

theorem map_fold_hasCol (f : Value → Value) :
    ∀ (ns : List String) (df : Frame) (n : String),
      hasCol (ns.foldl (fun d m => mapCol d m f) df) n = hasCol df n := by
  intro ns
  induction ns with
  | nil => intro df n; rfl
  | cons m ms ih =>
      intro df n
      rw [List.foldl_cons, ih, hasCol_mapCol]

theorem map_fold_getCol_of_mem (f : Value → Value) :
    ∀ (ns : List String) (df : Frame) {n : String},
      n ∈ ns → ns.Nodup →
      getCol (ns.foldl (fun d m => mapCol d m f) df) n
        = (getCol df n).map (fun c => ⟨c.name, c.cells.map f⟩) := by
  intro ns
  induction ns with
  | nil => intro df n h; simp at h
  | cons m ms ih =>
      intro df n hmem hnd
      simp only [List.nodup_cons] at hnd
      rw [List.foldl_cons]
      rcases List.mem_cons.mp hmem with h | h
      · subst h
        rw [map_fold_getCol_of_notMem f ms _ hnd.1, getCol_mapCol]
        cases hc : getCol df n with
        | none => rfl
        | some c =>
            have hcn := getCol_name hc
            simp [hcn]
      · have hne : m ≠ n := fun e => hnd.1 (e ▸ h)
        rw [ih _ h hnd.2, getCol_mapCol_of_ne df f hne]

theorem hasCol_setCol_self (df : Frame) (n : String) (cs : List Value) :
    hasCol (setCol df n cs) n = true := by
  unfold setCol
  split
  · rename_i h
    simp only [hasCol, List.any_map, List.any_eq_true] at h ⊢
    obtain ⟨c, hc, e⟩ := h
    refine ⟨c, hc, ?_⟩
    simp only [decide_eq_true_eq] at e
    simp [Function.comp, e]
  · simp [hasCol]

theorem hasCol_setCol_of_ne (df : Frame) {m n : String} (cs : List Value) (hne : m ≠ n) :
    hasCol (setCol df m cs) n = hasCol df n := by
  unfold setCol
  split
  · unfold hasCol
    rw [List.any_map]
    congr 1
    funext c
    by_cases h : c.name = m <;> simp [h, hne]
  · simp [hasCol, List.any_append, hne]

theorem getCol_setCol_self (df : Frame) (n : String) (cs : List Value) :
    getCol (setCol df n cs) n = some ⟨n, cs⟩ := by
  unfold setCol
  split
  · rename_i h
    unfold getCol
    rw [List.find?_map]
    have hp : ((fun c : Col => decide (c.name = n)) ∘
        (fun c : Col => if c.name = n then (⟨n, cs⟩ : Col) else c))
          = fun c : Col => decide (c.name = n) := by
      funext c
      by_cases hcn : c.name = n <;> simp [hcn]
    rw [hp]
    obtain ⟨c, hc⟩ := getCol_isSome_of_hasCol h
    rw [getCol] at hc
    rw [hc]
    have hcn := @getCol_name df n c (by rw [getCol]; exact hc)
    simp [hcn]
  · rename_i h
    rw [getCol, List.find?_append]
    have h0 : getCol df n = none :=
      getCol_eq_none_of_not_hasCol (by simpa using h)
    rw [getCol] at h0
    rw [h0]
    simp [List.find?]

theorem getCol_setCol_of_ne (df : Frame) {m n : String} (cs : List Value) (hne : m ≠ n) :
    getCol (setCol df m cs) n = getCol df n := by
  unfold setCol
  split
  · unfold getCol
    rw [List.find?_map]
    have hp : ((fun c : Col => decide (c.name = n)) ∘
        (fun c : Col => if c.name = m then (⟨m, cs⟩ : Col) else c))
          = fun c : Col => decide (c.name = n) := by
      funext c
      by_cases hcn : c.name = m <;> simp [hcn, hne]
    rw [hp]
    cases hc : List.find? (fun c : Col => decide (c.name = n)) df with
    | none => rfl
    | some c =>
        have hcn : c.name = n := by
          have := List.find?_some hc
          simpa using this
        simp [hcn, Ne.symm hne]
  · rw [getCol, List.find?_append]
    have h2 : List.find? (fun c : Col => decide (c.name = n)) [(⟨m, cs⟩ : Col)] = none := by
      simp [List.find?, hne]
    rw [h2]
    simp [getCol]

theorem hasCol_cellMap (df : Frame) (g : Col → List Value) (n : String) :
    hasCol (df.map (fun c => ⟨c.name, g c⟩)) n = hasCol df n := by
  unfold hasCol
  rw [List.any_map]
  rfl

theorem getCol_cellMap (df : Frame) (g : Col → List Value) (n : String) :
    getCol (df.map (fun c => ⟨c.name, g c⟩)) n
      = (getCol df n).map (fun c => ⟨c.name, g c⟩) := by
  unfold getCol
  rw [List.find?_map]
  rfl

theorem maskFilter_map_isSome (os : List (Option Int)) :
    maskFilter (os.map (·.isSome)) (os.map optDateVal)
      = (os.filterMap id).map (fun d => Value.vDate d 0) := by
  induction os with
  | nil => rfl
  | cons o os ih => cases o <;> simp [maskFilter, optDateVal, ih]

theorem maskFilter_length (bs : List Bool) :
    ∀ (vs : List Value), vs.length = bs.length →
      (maskFilter bs vs).length = bs.countP id := by
  induction bs with
  | nil =>
      intro vs h
      cases vs with
      | nil => rfl
      | cons v vs => simp at h
  | cons b bs ih =>
      intro vs h
      cases vs with
      | nil => simp at h
      | cons v vs =>
          simp only [List.length_cons, Nat.succ.injEq] at h
          cases b <;> simp [maskFilter, List.countP_cons, ih vs h, id]

theorem hasCol_setCol_mono (df : Frame) {n : String} (h : hasCol df n = true)
    (m : String) (cs : List Value) : hasCol (setCol df m cs) n = true := by
  by_cases e : m = n
  · subst e; exact hasCol_setCol_self df m cs
  · rw [hasCol_setCol_of_ne df cs e]; exact h

theorem setCol_length_inv {df : Frame} {L : Nat} (h : ∀ c ∈ df, c.cells.length = L)
    (n : String) (cs : List Value) (hcs : cs.length = L) :
    ∀ c ∈ setCol df n cs, c.cells.length = L := by
  intro c hc
  unfold setCol at hc
  split at hc
  · simp only [List.mem_map] at hc
    obtain ⟨c0, h0, e⟩ := hc
    subst e
    split
    · exact hcs
    · exact h c0 h0
  · rcases List.mem_append.mp hc with h0 | h0
    · exact h c h0
    · simp only [List.mem_singleton] at h0
      subst h0
      exact hcs


theorem normalize_schema_eq_of_found {df0 : Frame} {date_col : String}
    (h : find_col (colNames df0) ["date"] = some date_col) :
    normalize_schema df0 = .ok
      (List.foldl (fun d n => mapCol d n strCoerceVal)
        (List.foldl (fun d n => mapCol d n floatCoerceVal)
          (List.foldl (fun d n => mapCol d n intCoerceVal)
            (List.foldl (fun d p => ensureCol d p.1 p.2)
              (List.foldl (fun d p => applyRename d p.1 p.2) df0
                (renamePlan (colNames df0) date_col))
              schemaDefaults)
            intCols)
          floatCols)
        strCols) := by
  simp only [normalize_schema, h]

theorem normalize_schema_eq_of_none {df0 : Frame}
    (h : find_col (colNames df0) ["date"] = none) :
    normalize_schema df0
      = .error "No column containing 'date' found. Please include a Date column." := by
  simp only [normalize_schema, h]

theorem normalize_schema_hasCol {df0 out : Frame} (h : normalize_schema df0 = .ok out)
    {n : String} (hn : n ∈ schemaDefaults.map Prod.fst) : hasCol out n = true := by
  cases hfc : find_col (colNames df0) ["date"] with
  | none =>
      rw [normalize_schema_eq_of_none hfc] at h
      exact absurd h (by simp)
  | some dc =>
      rw [normalize_schema_eq_of_found hfc] at h
      simp only [Except.ok.injEq] at h
      subst h
      rw [map_fold_hasCol, map_fold_hasCol, map_fold_hasCol]
      exact ensure_fold_hasCol_of_mem _ _ hn

theorem process_dates_eq (sp : StrDateParse) (df : Frame) (dcol : Col)
    (hd : getCol df "Date" = some dcol) :
    process_dates sp df =
      (if ((dcol.cells.map (parse_any_date sp)).all fun o => o.isNone) = true
       then Except.error "No parsable dates found in 'Date' column"
       else Except.ok
        ((setCol (setCol df "Date_parsed"
            ((dcol.cells.map (parse_any_date sp)).map optDateVal)) "Date_only"
            ((dcol.cells.map (parse_any_date sp)).map optDateVal)).map
          (fun c => ⟨c.name,
            maskFilter ((dcol.cells.map (parse_any_date sp)).map (·.isSome)) c.cells⟩))) := by
  simp only [process_dates, hd]

theorem process_dates_shape {sp : StrDateParse} {df dated : Frame} {dcol : Col}
    (hd : getCol df "Date" = some dcol)
    (h : process_dates sp df = .ok dated) :
    dated = ((setCol (setCol df "Date_parsed"
        ((dcol.cells.map (parse_any_date sp)).map optDateVal)) "Date_only"
        ((dcol.cells.map (parse_any_date sp)).map optDateVal)).map
          (fun c => ⟨c.name,
            maskFilter ((dcol.cells.map (parse_any_date sp)).map (·.isSome)) c.cells⟩)) := by
  rw [process_dates_eq sp df dcol hd] at h
  split at h
  · exact absurd h (by simp)
  · simpa using h.symm

theorem process_dates_hasCol {sp : StrDateParse} {df dated : Frame} {dcol : Col}
    (hd : getCol df "Date" = some dcol)
    (h : process_dates sp df = .ok dated)
    {n : String} (hc : hasCol df n = true) : hasCol dated n = true := by
  rw [process_dates_shape hd h, hasCol_cellMap]
  exact hasCol_setCol_mono _ (hasCol_setCol_mono _ hc _ _) _ _

theorem process_dates_hasDateOnly {sp : StrDateParse} {df dated : Frame} {dcol : Col}
    (hd : getCol df "Date" = some dcol)
    (h : process_dates sp df = .ok dated) : hasCol dated "Date_only" = true := by
  rw [process_dates_shape hd h, hasCol_cellMap]
  exact hasCol_setCol_self _ _ _

theorem filterWindow_shape {df out : Frame} {dc : Col} {w : Int × Int}
    (hd : getCol df "Date_only" = some dc)
    (h : filterWindow df w = .ok out) :
    out = df.map (fun c => ⟨c.name,
      maskFilter (dc.cells.map (fun v => inWindowV v w)) c.cells⟩) := by
  simp only [filterWindow, hd, Except.ok.injEq] at h
  exact h.symm

theorem filterWindow_ok {df : Frame} {w : Int × Int}
    (h : hasCol df "Date_only" = true) : ∃ out, filterWindow df w = .ok out := by
  obtain ⟨dc, hdc⟩ := getCol_isSome_of_hasCol h
  simp only [filterWindow, hdc]
  exact ⟨_, rfl⟩

theorem filterWindow_hasCol {df out : Frame} {w : Int × Int}
    (h : filterWindow df w = .ok out) {n : String}
    (hc : hasCol df n = true) : hasCol out n = true := by
  cases hd : getCol df "Date_only" with
  | none => simp only [filterWindow, hd] at h; exact absurd h (by simp)
  | some dc =>
      rw [filterWindow_shape hd h, hasCol_cellMap]
      exact hc

theorem current_week_rows_ok {df : Frame}
    (h1 : hasCol df "Planned LI" = true) (h2 : hasCol df "Actual LI" = true)
    (h3 : hasCol df "Planned Efforts (mins)" = true)
    (h4 : hasCol df "Actual Efforts (mins)" = true) :
    ∃ out, current_week_rows df = .ok out := by
  obtain ⟨pli, hpli⟩ := getCol_isSome_of_hasCol h1
  obtain ⟨ali, hali⟩ := getCol_isSome_of_hasCol h2
  obtain ⟨pe, hpe⟩ := getCol_isSome_of_hasCol
    (hasCol_setCol_mono df h3 "LI Match"
      (List.zipWith (fun a b => Value.vStr (if a = b then "Match" else "Mismatch")) pli.cells ali.cells))
  obtain ⟨ae, hae⟩ := getCol_isSome_of_hasCol
    (hasCol_setCol_mono df h4 "LI Match"
      (List.zipWith (fun a b => Value.vStr (if a = b then "Match" else "Mismatch")) pli.cells ali.cells))
  simp only [current_week_rows, hpli, hali, hpe, hae]
  exact ⟨_, rfl⟩

theorem deviation_summary_ok {df : Frame}
    (hc : hasCol df "Category" = true) (hs : hasCol df "Subcategory" = true)
    (hl : hasCol df "Line Item" = true)
    (h1 : hasCol df "Planned LI" = true) (h2 : hasCol df "Actual LI" = true)
    (h3 : hasCol df "Planned Efforts (mins)" = true)
    (h4 : hasCol df "Actual Efforts (mins)" = true) :
    ∃ out, deviation_summary df = .ok out := by
  unfold deviation_summary
  by_cases hz : nRows df = 0
  · rw [if_pos hz]
    exact ⟨_, rfl⟩
  · rw [if_neg hz]
    obtain ⟨c, hcg⟩ := getCol_isSome_of_hasCol hc
    obtain ⟨s, hsg⟩ := getCol_isSome_of_hasCol hs
    obtain ⟨l, hlg⟩ := getCol_isSome_of_hasCol hl
    obtain ⟨p, h1g⟩ := getCol_isSome_of_hasCol h1
    obtain ⟨a, h2g⟩ := getCol_isSome_of_hasCol h2
    obtain ⟨pe, h3g⟩ := getCol_isSome_of_hasCol h3
    obtain ⟨ae, h4g⟩ := getCol_isSome_of_hasCol h4
    simp only [frameRecs, hcg, hsg, hlg, h1g, h2g, h3g, h4g]
    exact ⟨_, rfl⟩

theorem getCol_ensureCol_present (df : Frame) {n : String} (h : hasCol df n = true)
    (m : String) (w : Value) :
    getCol (ensureCol df m w) n = getCol df n := by
  by_cases e : m = n
  · subst e
    unfold ensureCol
    rw [h]
    simp
  · exact getCol_ensureCol_of_ne df w e

theorem ensure_fold_getCol_of_present :
    ∀ (ds : List (String × Value)) (df : Frame) {n : String}, hasCol df n = true →
      getCol (ds.foldl (fun d p => ensureCol d p.1 p.2) df) n = getCol df n := by
  intro ds
  induction ds with
  | nil => intro df n _; rfl
  | cons p ps ih =>
      intro df n h
      rw [List.foldl_cons, ih _ (hasCol_ensureCol_mono df h p.1 p.2),
        getCol_ensureCol_present df h p.1 p.2]

theorem roundTo_two_five : roundTo 2 (5 : Rat) = 5 := by
  have h1 : (5 : Rat) * (10 : Rat) ^ 2 = 500 := by norm_num
  rw [roundTo, h1]
  have h2 : roundHalfEven 500 = 500 := by
    rw [roundHalfEven]
    have hf : (500 : Rat).floor = 500 := by decide
    rw [hf]
    norm_num
  rw [h2]
  norm_num

theorem roundTo_one_zero : roundTo 1 (0 : Rat) = 0 := by
  have h1 : (0 : Rat) * (10 : Rat) ^ 1 = 0 := by norm_num
  rw [roundTo, h1]
  have h2 : roundHalfEven 0 = 0 := by
    rw [roundHalfEven]
    have hf : (0 : Rat).floor = 0 := by decide
    rw [hf]
    norm_num
  rw [h2]
  norm_num

theorem devRows_zeroPlan : devRows [zeroPlanRec] = [zeroPlanRow] := by
  unfold devRows
  rw [show sortKeys (([zeroPlanRec].map devKey).dedup)
      = [(Value.vStr "Cat1", Value.vStr "", Value.vStr "Item1")] from by decide]
  simp only [List.map_cons, List.map_nil]
  rw [show List.filter (fun r => decide (devKey r
        = (Value.vStr "Cat1", Value.vStr "", Value.vStr "Item1"))) [zeroPlanRec]
      = [zeroPlanRec] from by decide]
  simp only [List.cons.injEq, and_true, List.map_cons, List.map_nil,
    List.sum_cons, List.sum_nil, add_zero]
  unfold zeroPlanRec zeroPlanRow
  simp only [DevRow.mk.injEq]
  norm_num [roundTo_one_zero, roundTo_two_five]

theorem nRows_eq_zero_of_empty {df : Frame} (h : ∀ c ∈ df, c.cells = []) :
    nRows df = 0 := by
  cases df with
  | nil => rfl
  | cons c cs =>
      have := h c (List.mem_cons_self _ _)
      simp [nRows, this]

theorem setCol_empty_inv {df : Frame} (h : ∀ c ∈ df, c.cells = []) (n : String) :
    ∀ c ∈ setCol df n [], c.cells = [] := by
  intro c hc
  unfold setCol at hc
  split at hc
  · simp only [List.mem_map] at hc
    obtain ⟨c0, h0, e⟩ := hc
    subst e
    split
    · rfl
    · exact h c0 h0
  · rcases List.mem_append.mp hc with h0 | h0
    · exact h c h0
    · simp only [List.mem_singleton] at h0
      subst h0
      rfl

theorem ensureLoop_empty_inv :
    ∀ (ns : List String) (df : Frame), (∀ c ∈ df, c.cells = []) →
      ∀ c ∈ ensureLoop df ns, c.cells = [] := by
  intro ns
  induction ns with
  | nil => intro df h; exact h
  | cons m ms ih =>
      intro df h
      unfold ensureLoop
      rw [List.foldl_cons]
      have hstep : ∀ c ∈ (if hasCol df m then df
          else setCol df m (List.replicate (nRows df) (defaultFor m))), c.cells = [] := by
        split
        · exact h
        · rw [nRows_eq_zero_of_empty h]
          exact setCol_empty_inv h m
      exact ih _ hstep

theorem ensureLoop_step_hasCol_mono {df : Frame} {n : String} (h : hasCol df n = true)
    (m : String) :
    hasCol (if hasCol df m then df
      else setCol df m (List.replicate (nRows df) (defaultFor m))) n = true := by
  split
  · exact h
  · exact hasCol_setCol_mono df h m _

theorem ensureLoop_hasCol_mono :
    ∀ (ns : List String) (df : Frame) {n : String}, hasCol df n = true →
      hasCol (ensureLoop df ns) n = true := by
  intro ns
  induction ns with
  | nil => intro df n h; exact h
  | cons m ms ih =>
      intro df n h
      unfold ensureLoop
      rw [List.foldl_cons]
      exact ih _ (ensureLoop_step_hasCol_mono h m)

theorem ensureLoop_hasCol_of_mem :
    ∀ (ns : List String) (df : Frame) {n : String}, n ∈ ns →
      hasCol (ensureLoop df ns) n = true := by
  intro ns
  induction ns with
  | nil => intro df n h; simp at h
  | cons m ms ih =>
      intro df n h
      rcases List.mem_cons.mp h with h | h
      · subst h
        unfold ensureLoop
        rw [List.foldl_cons]
        have hstep : hasCol (if hasCol df n then df
            else setCol df n (List.replicate (nRows df) (defaultFor n))) n = true := by
          split
          · assumption
          · exact hasCol_setCol_self df n _
        exact ensureLoop_hasCol_mono ms _ hstep
      · unfold ensureLoop
        rw [List.foldl_cons]
        exact ih _ h

theorem getCol_of_empty {df : Frame} {n : String} (hall : ∀ c ∈ df, c.cells = [])
    (h : hasCol df n = true) : getCol df n = some ⟨n, []⟩ := by
  obtain ⟨c, hc⟩ := getCol_isSome_of_hasCol h
  have hn := getCol_name hc
  have hcm := hall c (mem_of_getCol hc)
  rw [hc]
  cases c
  simp only at hn hcm
  rw [hn, hcm]

theorem selectCols_all_empty :
    ∀ (ns : List String) (df : Frame), (∀ n ∈ ns, getCol df n = some ⟨n, []⟩) →
      selectCols df ns = ns.map (fun n => ⟨n, []⟩) := by
  intro ns
  induction ns with
  | nil => intro df _; rfl
  | cons m ms ih =>
      intro df h
      unfold selectCols
      rw [List.filterMap_cons]
      rw [h m (List.mem_cons_self _ _)]
      simp only [List.map_cons]
      congr 1
      exact ih df (fun n hn => h n (List.mem_cons_of_mem _ hn))

theorem hasCol_eq_false_of_not_mem {df : Frame} {n : String} (h : n ∉ colNames df) :
    hasCol df n = false := by
  cases hhc : hasCol df n with
  | false => rfl
  | true => exact absurd (hasCol_iff_mem_colNames.mp hhc) h

theorem ensure_default_of_unresolved (df : Frame) (dc : String) (fname : String) (v : Value)
    {needles : List String}
    (hfind : find_col (colNames df) needles = none)
    (hself : (needles.any fun n => strContainsSub (lcStr fname) n) = true)
    (hmem : (fname, v) ∈ schemaDefaults)
    (hplan : ∀ p ∈ renamePlan (colNames df) dc, p.2 = fname → p.1 = none) :
    getCol (List.foldl (fun d p => ensureCol d p.1 p.2)
        (List.foldl (fun d p => applyRename d p.1 p.2) df (renamePlan (colNames df) dc))
        schemaDefaults) fname
      = some ⟨fname, List.replicate (nRows df) v⟩ := by
  have h0 : fname ∉ colNames df := by
    intro hmemname
    have hfalse := (find_col_eq_none_iff _ _).mp hfind fname hmemname
    rw [hself] at hfalse
    exact absurd hfalse (by simp)
  have h1 : fname ∉ colNames (List.foldl (fun d p => applyRename d p.1 p.2) df
      (renamePlan (colNames df) dc)) := by
    intro hmem1
    rcases mem_colNames_renameFold _ _ hmem1 with ⟨p, hp, hpne, hps⟩ | hmem0
    · exact hpne (hplan p hp hps)
    · exact h0 hmem0
  rw [ensure_fold_getCol_of_mem schemaDefaults _ hmem (by decide)
    (hasCol_eq_false_of_not_mem h1), nRows_renameFold]

/- ==================== claim theorems ==================== -/

/-- C1 (counterexample): the Column Resolver does *not* resolve by needle
priority.  For the `Planned LI` needle list, the sheet with columns
`["Planned Count", "Planned LI"]` resolves to `"Planned Count"` (the first
column in position order that matches any needle), whereas needle-priority
resolution — the first needle, `"planned li"`, matching some column — would
pick `"Planned LI"`.  Column position, not needle order, breaks the tie. -/
theorem find_col_position_over_needle_priority :
    find_col ["Planned Count", "Planned LI"] plannedLiNeedles = some "Planned Count"
  ∧ find_col_needle_priority ["Planned Count", "Planned LI"] plannedLiNeedles
      = some "Planned LI"
  ∧ find_col ["Planned Count", "Planned LI"] plannedLiNeedles
      ≠ find_col_needle_priority ["Planned Count", "Planned LI"] plannedLiNeedles := by
  refine ⟨by decide, by decide, by decide⟩

/-- C1 (amended): for every list of input column labels and every needle
list, `find_col` selects the *first input column in column order* whose
lowercased label contains some needle; needle order matters only within a
single column's test, so ambiguity between similarly-named fields is
resolved by column position, not by needle priority. -/
theorem find_col_first_column_match (cols needles : List String) :
    find_col cols needles
      = cols.find? (fun c => needles.any (fun n => strContainsSub (lcStr c) n)) :=
  find_col_eq_find? cols needles

/-- C4: `parse_any_date` is total — every cell value yields either a
calendar date or the `NaT` sentinel, never an exception — and follows the
four-step resolution order: missing stays missing; a native date/time is
truncated to its calendar day (the time of day is discarded); a non-boolean
number is an `excelEpoch` day serial (coerced to the sentinel outside the
`Timestamp` range); a string is stripped, a blank yields the sentinel,
otherwise the month-first parse is tried and then the day-first retry; a
boolean is excluded from the numeric branch and goes through the text
branch. -/
theorem parse_any_date_total_four_step (sp : StrDateParse) :
    (∀ v : Value, parse_any_date sp v = none ∨ ∃ d, parse_any_date sp v = some d)
  ∧ parse_any_date sp .vNaN = none
  ∧ (∀ day sec, parse_any_date sp (.vDate day sec) = some day)
  ∧ (∀ q : Rat, parse_any_date sp (.vNum q)
      = if tsMinDay ≤ excelEpoch + q.floor ∧ excelEpoch + q.floor ≤ tsMaxDay
        then some (excelEpoch + q.floor) else none)
  ∧ (∀ s : String, parse_any_date sp (.vStr s)
      = if pyStrip s = "" then none
        else match sp false (pyStrip s) with
             | some dt => some dt.1
             | none => (sp true (pyStrip s)).map Prod.fst)
  ∧ (∀ b : Bool, parse_any_date sp (.vBool b)
      = parseText sp (if b then "True" else "False")) := by
  refine ⟨?_, rfl, fun day sec => rfl, fun q => rfl, fun s => ?_, fun b => rfl⟩
  · intro v
    cases h : parse_any_date sp v with
    | none => exact Or.inl rfl
    | some d => exact Or.inr ⟨d, rfl⟩
  · show parseText sp s = _
    simp only [parseText]
    split
    · rfl
    · cases sp false (pyStrip s) with
      | some dt => rfl
      | none => cases sp true (pyStrip s) <;> rfl

/-- C5: the Week Partitioner computes `current start = today - weekday(today)`
(Monday = 0, so the start is a Monday), `current end = start + 6`,
`next start = current end + 1`, `next end = next start + 6`; the two
inclusive 7-day windows are contiguous and non-overlapping, so no date is a
member of both. -/
theorem get_week_ranges_partition (today d : Int) :
    (get_week_ranges today).1.1 = today - pyWeekday today
  ∧ 0 ≤ pyWeekday today ∧ pyWeekday today < 7
  ∧ pyWeekday ((get_week_ranges today).1.1) = 0
  ∧ (get_week_ranges today).1.2 = (get_week_ranges today).1.1 + 6
  ∧ (get_week_ranges today).2.1 = (get_week_ranges today).1.2 + 1
  ∧ (get_week_ranges today).2.2 = (get_week_ranges today).2.1 + 6
  ∧ (inWindow d (get_week_ranges today).1 && inWindow d (get_week_ranges today).2) = false := by
  refine ⟨rfl, ?_, ?_, ?_, rfl, rfl, rfl, ?_⟩
  · exact Int.emod_nonneg _ (by norm_num)
  · exact Int.emod_lt_of_pos _ (by norm_num)
  · show (today - (today + 3) % 7 + 3) % 7 = 0
    omega
  · show (decide (today - (today + 3) % 7 ≤ d ∧ d ≤ today - (today + 3) % 7 + 6) &&
          decide (today - (today + 3) % 7 + 6 + 1 ≤ d ∧
            d ≤ today - (today + 3) % 7 + 6 + 1 + 6)) = false
    rcases Classical.em (today - (today + 3) % 7 ≤ d ∧ d ≤ today - (today + 3) % 7 + 6)
      with hA | hA
    · have hB : ¬(today - (today + 3) % 7 + 6 + 1 ≤ d ∧
          d ≤ today - (today + 3) % 7 + 6 + 1 + 6) := by omega
      rw [decide_eq_false hB, Bool.and_false]
    · rw [decide_eq_false hA, Bool.false_and]

/-- C8: a numeric date cell is a day-count serial with epoch 1899-12-30:
serial 0 maps to 1899-12-30 itself, serial 1 maps to 1899-12-31, and in
general an in-range serial `q` maps to the epoch plus `⌊q⌋` days (the result
truncated to calendar-date granularity). -/
theorem serial_date_epoch (sp : StrDateParse) :
    parse_any_date sp (.vNum 0) = some (daysFromCivil 1899 12 30)
  ∧ parse_any_date sp (.vNum 1) = some (daysFromCivil 1899 12 31)
  ∧ (∀ q : Rat, tsMinDay ≤ excelEpoch + q.floor → excelEpoch + q.floor ≤ tsMaxDay →
        parse_any_date sp (.vNum q) = some (excelEpoch + q.floor)) := by
  refine ⟨?_, ?_, ?_⟩
  · show (if tsMinDay ≤ excelEpoch + (0 : Rat).floor ∧ excelEpoch + (0 : Rat).floor ≤ tsMaxDay
          then some (excelEpoch + (0 : Rat).floor) else none)
        = some (daysFromCivil 1899 12 30)
    decide
  · show (if tsMinDay ≤ excelEpoch + (1 : Rat).floor ∧ excelEpoch + (1 : Rat).floor ≤ tsMaxDay
          then some (excelEpoch + (1 : Rat).floor) else none)
        = some (daysFromCivil 1899 12 31)
    decide
  · intro q h1 h2
    show (if tsMinDay ≤ excelEpoch + q.floor ∧ excelEpoch + q.floor ≤ tsMaxDay
          then some (excelEpoch + q.floor) else none) = some (excelEpoch + q.floor)
    rw [if_pos ⟨h1, h2⟩]

/-- C8 (witness): the fractional serial `3/2` is in `Timestamp` range and
parses to 1899-12-31, exercising the truncation of a fractional serial. -/
theorem serial_date_epoch_witness :
    tsMinDay ≤ excelEpoch + q32.floor
  ∧ excelEpoch + q32.floor ≤ tsMaxDay
  ∧ parse_any_date sp0 (.vNum q32) = some (daysFromCivil 1899 12 31) := by
  refine ⟨by decide, by decide, ?_⟩
  have h := (serial_date_epoch sp0).2.2 q32 (by decide) (by decide)
  rw [h]
  decide

/-- C2 (counterexample): on the scenario sheet with columns `Activity Date`,
`Cat`, `Task`, `Plan Count`, `Done Count`, `Plan Mins`, `Done Mins`,
normalization succeeds but the claimed resolution does *not* hold: `Task`
does not land in `Line Item`, `Plan Count`/`Done Count` do not land in the
LI-count columns, and `Plan Mins`/`Done Mins` do not land in the effort
columns. -/
theorem normalize_schema_scenario_counterexample :
    (normalize_schema scenarioDf).toOption.map scenarioClaimedCols = some false := by
  decide

/-- C2 (amended): on the scenario sheet only `Activity Date` → `Date` and
`Cat` → `Category` resolve.  The Line-Item resolver picks `Activity Date`
(its needle `"activity"` matches that column first), which the date rename
already consumed, so the rename is a no-op; no needle of the LI-count or
effort fields matches `Plan Count`, `Done Count`, `Plan Mins` or
`Done Mins`.  Consequently `Task`, `Plan Count`, `Done Count`, `Plan Mins`
and `Done Mins` pass through untouched, and `Line Item`, `Subcategory`,
both Details fields get the empty-string default while `Planned LI`,
`Actual LI` and both effort columns get the zero default. -/
theorem normalize_schema_scenario_actual :
    find_col (colNames scenarioDf) lineNeedles = some "Activity Date"
  ∧ find_col (colNames scenarioDf) plannedLiNeedles = none
  ∧ find_col (colNames scenarioDf) actualLiNeedles = none
  ∧ find_col (colNames scenarioDf) plannedEffNeedles = none
  ∧ find_col (colNames scenarioDf) actualEffNeedles = none
  ∧ normalize_schema scenarioDf = .ok scenarioOut := by
  refine ⟨by decide, by decide, by decide, by decide, by decide, by decide⟩

/-- C10: when a text column is present in the input, an individual missing
cell (`NaN`) is converted by `astype(str)` to the literal string `"nan"` —
not the empty string — while present text cells pass through unchanged; the
empty-string default is used only when the whole column is absent from the
input.  Shown for the `Line Item` field with arbitrary cell contents. -/
theorem nan_text_cells_become_nan_string (dcells lcells : List Value) :
    (∃ out, normalize_schema [⟨"Date", dcells⟩, ⟨"Line Item", lcells⟩] = .ok out
        ∧ getCol out "Line Item" = some ⟨"Line Item", lcells.map strCoerceVal⟩)
  ∧ strCoerceVal .vNaN = .vStr "nan"
  ∧ (∀ s, strCoerceVal (.vStr s) = .vStr s)
  ∧ (∃ out, normalize_schema [⟨"Date", dcells⟩] = .ok out
        ∧ getCol out "Line Item"
            = some ⟨"Line Item", List.replicate dcells.length (Value.vStr "")⟩) := by
  refine ⟨?_, rfl, fun s => rfl, ?_⟩
  · have hfc : find_col (colNames [⟨"Date", dcells⟩, ⟨"Line Item", lcells⟩]) ["date"]
        = some "Date" := by
      show find_col ["Date", "Line Item"] ["date"] = some "Date"
      decide
    refine ⟨_, normalize_schema_eq_of_found hfc, ?_⟩
    have hplan : renamePlan (colNames [⟨"Date", dcells⟩, ⟨"Line Item", lcells⟩]) "Date"
        = [(some "Date", "Date"), (none, "Category"), (none, "Subcategory"),
           (some "Line Item", "Line Item"), (none, "Planned LI"), (none, "Actual LI"),
           (none, "Planned Efforts (mins)"), (none, "Actual Efforts (mins)"),
           (none, "Planned Details"), (none, "Actual Details")] := by
      show renamePlan ["Date", "Line Item"] "Date" = _
      decide
    have hdf1 : List.foldl (fun d p => applyRename d p.1 p.2)
        ([⟨"Date", dcells⟩, ⟨"Line Item", lcells⟩] : Frame)
        (renamePlan (colNames [⟨"Date", dcells⟩, ⟨"Line Item", lcells⟩]) "Date")
        = [⟨"Date", dcells⟩, ⟨"Line Item", lcells⟩] := by
      rw [hplan]
      simp only [List.foldl_cons, List.foldl_nil, applyRename, renameCol,
        List.map_cons, List.map_nil]
      simp
    rw [hdf1]
    rw [map_fold_getCol_of_mem strCoerceVal strCols _ (by decide) (by decide)]
    rw [map_fold_getCol_of_notMem floatCoerceVal floatCols _ (by decide)]
    rw [map_fold_getCol_of_notMem intCoerceVal intCols _ (by decide)]
    have hpres : hasCol ([⟨"Date", dcells⟩, ⟨"Line Item", lcells⟩] : Frame) "Line Item"
        = true := rfl
    rw [ensure_fold_getCol_of_present _ _ hpres]
    rfl
  · have hfc : find_col (colNames [(⟨"Date", dcells⟩ : Col)]) ["date"] = some "Date" := by
      show find_col ["Date"] ["date"] = some "Date"
      decide
    refine ⟨_, normalize_schema_eq_of_found hfc, ?_⟩
    have hplan : renamePlan (colNames [(⟨"Date", dcells⟩ : Col)]) "Date"
        = [(some "Date", "Date"), (none, "Category"), (none, "Subcategory"),
           (none, "Line Item"), (none, "Planned LI"), (none, "Actual LI"),
           (none, "Planned Efforts (mins)"), (none, "Actual Efforts (mins)"),
           (none, "Planned Details"), (none, "Actual Details")] := by
      show renamePlan ["Date"] "Date" = _
      decide
    have hdf1 : List.foldl (fun d p => applyRename d p.1 p.2)
        ([(⟨"Date", dcells⟩ : Col)])
        (renamePlan (colNames [(⟨"Date", dcells⟩ : Col)]) "Date")
        = [(⟨"Date", dcells⟩ : Col)] := by
      rw [hplan]
      simp only [List.foldl_cons, List.foldl_nil, applyRename, renameCol,
        List.map_cons, List.map_nil]
      simp
    rw [hdf1]
    rw [map_fold_getCol_of_mem strCoerceVal strCols _ (by decide) (by decide)]
    rw [map_fold_getCol_of_notMem floatCoerceVal floatCols _ (by decide)]
    rw [map_fold_getCol_of_notMem intCoerceVal intCols _ (by decide)]
    have habs : hasCol ([(⟨"Date", dcells⟩ : Col)]) "Line Item" = false := rfl
    rw [ensure_fold_getCol_of_mem schemaDefaults _ (n := "Line Item") (v := Value.vStr "")
      (by decide) (by decide) habs]
    simp only [Option.map, List.map_replicate]
    rfl

/-- C6: every group row of the deviation summary carries
`Effort Δ (mins) = round₂(actual − planned)` minutes, and a percentage delta
of `round₁((minute delta / planned minutes) × 100)` when the group's summed
planned minutes are nonzero and exactly `0` when they are zero — a total
computation, never an error or an infinity. -/
theorem deviation_summary_pct_formula (recs : List GroupRec) (row : DevRow)
    (h : row ∈ devRows recs) :
    row.effD = roundTo 2 (row.aEff - row.pEff)
  ∧ row.pct = roundTo 1 (if row.pEff = 0 then 0
      else (row.aEff - row.pEff) / row.pEff * 100) := by
  unfold devRows at h
  rw [List.mem_map] at h
  obtain ⟨k, hk, rfl⟩ := h
  refine ⟨rfl, ?_⟩
  dsimp only
  rcases eq_or_ne (((recs.filter (fun r => devKey r = k)).map (·.pEff)).sum) 0 with hpe | hpe
  · rw [if_neg (not_not_intro hpe), if_pos hpe]
  · rw [if_pos hpe, if_neg hpe]

/-- C6 (witness): the group of `zeroPlanRec` — planned 0 minutes, actual 5
minutes — produces the summary row `zeroPlanRow`, whose percentage delta is
exactly `0` (not an error, not an infinity). -/
theorem deviation_summary_pct_formula_witness :
    zeroPlanRow ∈ devRows [zeroPlanRec]
  ∧ zeroPlanRow.effD = roundTo 2 (zeroPlanRow.aEff - zeroPlanRow.pEff)
  ∧ zeroPlanRow.pct = roundTo 1 (if zeroPlanRow.pEff = 0 then 0
      else (zeroPlanRow.aEff - zeroPlanRow.pEff) / zeroPlanRow.pEff * 100)
  ∧ zeroPlanRow.pct = 0 := by
  have hmem : zeroPlanRow ∈ devRows [zeroPlanRec] := by
    rw [devRows_zeroPlan]
    exact List.mem_singleton.mpr rfl
  have h := deviation_summary_pct_formula [zeroPlanRec] zeroPlanRow hmem
  exact ⟨hmem, h.1, h.2, rfl⟩

/-- C9: on an empty filtered record set (every column present but zero
rows), each of the three views keeps its full column schema with zero rows —
`current_week_rows` the 12 report columns, `next_week_rows` the 7 planning
columns, `deviation_summary` the 10 summary columns — and the renderer
produces the explicit no-data placeholder `div` for such an empty table
instead of omitting the section. -/
theorem empty_views_schema_and_placeholder (df : Frame) (msg : String)
    (hempty : ∀ c ∈ df, c.cells = [])
    (h1 : hasCol df "Planned LI" = true) (h2 : hasCol df "Actual LI" = true)
    (h3 : hasCol df "Planned Efforts (mins)" = true)
    (h4 : hasCol df "Actual Efforts (mins)" = true) :
    current_week_rows df = .ok (curCols.map (fun n => (⟨n, []⟩ : Col)))
  ∧ next_week_rows df = nextCols.map (fun n => (⟨n, []⟩ : Col))
  ∧ deviation_summary df = .ok (devCols.map (fun n => (⟨n, []⟩ : Col)))
  ∧ html_table (devCols.map (fun n => (⟨n, []⟩ : Col))) msg
      = "<div style='padding:10px;background:#fff8f0;border-radius:6px;color:#92400e'>"
          ++ msg ++ "</div>" := by
  have hz := nRows_eq_zero_of_empty hempty
  refine ⟨?_, ?_, ?_, ?_⟩
  · have hp := getCol_of_empty hempty h1
    have ha := getCol_of_empty hempty h2
    have hempty1 : ∀ c ∈ setCol df "LI Match" [], c.cells = [] :=
      setCol_empty_inv hempty "LI Match"
    have hpe := getCol_of_empty hempty1
      (hasCol_setCol_mono df h3 "LI Match" [])
    have hae := getCol_of_empty hempty1
      (hasCol_setCol_mono df h4 "LI Match" [])
    have hempty2 : ∀ c ∈ setCol (setCol df "LI Match" []) "Effort Δ (mins)" [], c.cells = [] :=
      setCol_empty_inv hempty1 "Effort Δ (mins)"
    simp only [current_week_rows, hp, ha, hpe, hae, List.zipWith_nil_left]
    rw [selectCols_all_empty curCols _ (fun n hn =>
      getCol_of_empty (ensureLoop_empty_inv curCols _ hempty2)
        (ensureLoop_hasCol_of_mem curCols _ hn))]
  · unfold next_week_rows
    rw [selectCols_all_empty nextCols _ (fun n hn =>
      getCol_of_empty (ensureLoop_empty_inv nextCols _ hempty)
        (ensureLoop_hasCol_of_mem nextCols _ hn))]
  · unfold deviation_summary
    rw [if_pos hz]
  · rfl

/-- C9 (witness): the canonical empty filtered frame of the pipeline yields
the three fully-schemed empty views and the rendered placeholder. -/
theorem empty_views_schema_and_placeholder_witness :
    current_week_rows emptyCurDf = .ok (curCols.map (fun n => (⟨n, []⟩ : Col)))
  ∧ next_week_rows emptyCurDf = nextCols.map (fun n => (⟨n, []⟩ : Col))
  ∧ deviation_summary emptyCurDf = .ok (devCols.map (fun n => (⟨n, []⟩ : Col)))
  ∧ html_table (devCols.map (fun n => (⟨n, []⟩ : Col))) "No deviation data"
      = "<div style='padding:10px;background:#fff8f0;border-radius:6px;color:#92400e'>"
          ++ "No deviation data" ++ "</div>" :=
  empty_views_schema_and_placeholder emptyCurDf "No deviation data"
    (by decide) (by decide) (by decide) (by decide) (by decide)

/-- C7: the date column is the only mandatory field of `normalize_schema`.
When no input label contains `"date"`, normalization fails with the schema
error and the whole pipeline (`run_report`) returns that error, so no rows
are processed; when a date column resolves, normalization always succeeds,
and every optional canonical field whose needles match no input column
receives its documented default — `""` for the text fields and `0` for the
count/effort fields — instead of failing. -/
theorem normalize_schema_date_mandatory (df : Frame) :
    (find_col (colNames df) ["date"] = none →
        normalize_schema df
          = .error "No column containing 'date' found. Please include a Date column."
      ∧ ∀ (sp : StrDateParse) (today : Int), run_report sp df today
          = .error "No column containing 'date' found. Please include a Date column.")
  ∧ (∀ dc, find_col (colNames df) ["date"] = some dc →
      ∃ out, normalize_schema df = .ok out
        ∧ (find_col (colNames df) catNeedles = none →
            getCol out "Category"
              = some ⟨"Category", List.replicate (nRows df) (.vStr "")⟩)
        ∧ (find_col (colNames df) subNeedles = none →
            getCol out "Subcategory"
              = some ⟨"Subcategory", List.replicate (nRows df) (.vStr "")⟩)
        ∧ (find_col (colNames df) lineNeedles = none →
            getCol out "Line Item"
              = some ⟨"Line Item", List.replicate (nRows df) (.vStr "")⟩)
        ∧ (find_col (colNames df) plannedLiNeedles = none →
            getCol out "Planned LI"
              = some ⟨"Planned LI", List.replicate (nRows df) (.vNum 0)⟩)
        ∧ (find_col (colNames df) actualLiNeedles = none →
            getCol out "Actual LI"
              = some ⟨"Actual LI", List.replicate (nRows df) (.vNum 0)⟩)
        ∧ (find_col (colNames df) plannedEffNeedles = none →
            getCol out "Planned Efforts (mins)"
              = some ⟨"Planned Efforts (mins)", List.replicate (nRows df) (.vNum 0)⟩)
        ∧ (find_col (colNames df) actualEffNeedles = none →
            getCol out "Actual Efforts (mins)"
              = some ⟨"Actual Efforts (mins)", List.replicate (nRows df) (.vNum 0)⟩)
        ∧ (find_col (colNames df) plannedDetNeedles = none →
            getCol out "Planned Details"
              = some ⟨"Planned Details", List.replicate (nRows df) (.vStr "")⟩)
        ∧ (find_col (colNames df) actualDetNeedles = none →
            getCol out "Actual Details"
              = some ⟨"Actual Details", List.replicate (nRows df) (.vStr "")⟩)) := by
  constructor
  · intro hfc
    refine ⟨normalize_schema_eq_of_none hfc, ?_⟩
    intro sp today
    simp only [run_report, normalize_schema_eq_of_none hfc, Except.bind, bind]
  · intro dc hdc
    refine ⟨_, normalize_schema_eq_of_found hdc, ?_, ?_, ?_, ?_, ?_, ?_, ?_, ?_, ?_⟩
    · intro hfind
      rw [map_fold_getCol_of_mem strCoerceVal strCols _ (by decide) (by decide),
          map_fold_getCol_of_notMem floatCoerceVal floatCols _ (by decide),
          map_fold_getCol_of_notMem intCoerceVal intCols _ (by decide),
          ensure_default_of_unresolved df dc "Category" (Value.vStr "") hfind (by decide) (by decide) (by
            intro p hp hps
            simp only [renamePlan, List.mem_cons, List.not_mem_nil, or_false] at hp
            rcases hp with h|h|h|h|h|h|h|h|h|h <;> subst h <;>
              first
                | exact hfind
                | exact absurd hps (by simp))]
      simp only [Option.map, List.map_replicate]
      rfl
    · intro hfind
      rw [map_fold_getCol_of_mem strCoerceVal strCols _ (by decide) (by decide),
          map_fold_getCol_of_notMem floatCoerceVal floatCols _ (by decide),
          map_fold_getCol_of_notMem intCoerceVal intCols _ (by decide),
          ensure_default_of_unresolved df dc "Subcategory" (Value.vStr "") hfind (by decide) (by decide) (by
            intro p hp hps
            simp only [renamePlan, List.mem_cons, List.not_mem_nil, or_false] at hp
            rcases hp with h|h|h|h|h|h|h|h|h|h <;> subst h <;>
              first
                | exact hfind
                | exact absurd hps (by simp))]
      simp only [Option.map, List.map_replicate]
      rfl
    · intro hfind
      rw [map_fold_getCol_of_mem strCoerceVal strCols _ (by decide) (by decide),
          map_fold_getCol_of_notMem floatCoerceVal floatCols _ (by decide),
          map_fold_getCol_of_notMem intCoerceVal intCols _ (by decide),
          ensure_default_of_unresolved df dc "Line Item" (Value.vStr "") hfind (by decide) (by decide) (by
            intro p hp hps
            simp only [renamePlan, List.mem_cons, List.not_mem_nil, or_false] at hp
            rcases hp with h|h|h|h|h|h|h|h|h|h <;> subst h <;>
              first
                | exact hfind
                | exact absurd hps (by simp))]
      simp only [Option.map, List.map_replicate]
      rfl
    · intro hfind
      rw [map_fold_getCol_of_notMem strCoerceVal strCols _ (by decide),
          map_fold_getCol_of_notMem floatCoerceVal floatCols _ (by decide),
          map_fold_getCol_of_mem intCoerceVal intCols _ (by decide) (by decide),
          ensure_default_of_unresolved df dc "Planned LI" (Value.vNum 0) hfind (by decide) (by decide) (by
            intro p hp hps
            simp only [renamePlan, List.mem_cons, List.not_mem_nil, or_false] at hp
            rcases hp with h|h|h|h|h|h|h|h|h|h <;> subst h <;>
              first
                | exact hfind
                | exact absurd hps (by simp))]
      simp only [Option.map, List.map_replicate]
      rw [show intCoerceVal (Value.vNum 0) = Value.vNum 0 from by decide]
    · intro hfind
      rw [map_fold_getCol_of_notMem strCoerceVal strCols _ (by decide),
          map_fold_getCol_of_notMem floatCoerceVal floatCols _ (by decide),
          map_fold_getCol_of_mem intCoerceVal intCols _ (by decide) (by decide),
          ensure_default_of_unresolved df dc "Actual LI" (Value.vNum 0) hfind (by decide) (by decide) (by
            intro p hp hps
            simp only [renamePlan, List.mem_cons, List.not_mem_nil, or_false] at hp
            rcases hp with h|h|h|h|h|h|h|h|h|h <;> subst h <;>
              first
                | exact hfind
                | exact absurd hps (by simp))]
      simp only [Option.map, List.map_replicate]
      rw [show intCoerceVal (Value.vNum 0) = Value.vNum 0 from by decide]
    · intro hfind
      rw [map_fold_getCol_of_notMem strCoerceVal strCols _ (by decide),
          map_fold_getCol_of_mem floatCoerceVal floatCols _ (by decide) (by decide),
          map_fold_getCol_of_notMem intCoerceVal intCols _ (by decide),
          ensure_default_of_unresolved df dc "Planned Efforts (mins)" (Value.vNum 0) hfind (by decide) (by decide) (by
            intro p hp hps
            simp only [renamePlan, List.mem_cons, List.not_mem_nil, or_false] at hp
            rcases hp with h|h|h|h|h|h|h|h|h|h <;> subst h <;>
              first
                | exact hfind
                | exact absurd hps (by simp))]
      simp only [Option.map, List.map_replicate]
      rw [show floatCoerceVal (Value.vNum 0) = Value.vNum 0 from by decide]
    · intro hfind
      rw [map_fold_getCol_of_notMem strCoerceVal strCols _ (by decide),
          map_fold_getCol_of_mem floatCoerceVal floatCols _ (by decide) (by decide),
          map_fold_getCol_of_notMem intCoerceVal intCols _ (by decide),
          ensure_default_of_unresolved df dc "Actual Efforts (mins)" (Value.vNum 0) hfind (by decide) (by decide) (by
            intro p hp hps
            simp only [renamePlan, List.mem_cons, List.not_mem_nil, or_false] at hp
            rcases hp with h|h|h|h|h|h|h|h|h|h <;> subst h <;>
              first
                | exact hfind
                | exact absurd hps (by simp))]
      simp only [Option.map, List.map_replicate]
      rw [show floatCoerceVal (Value.vNum 0) = Value.vNum 0 from by decide]
    · intro hfind
      rw [map_fold_getCol_of_mem strCoerceVal strCols _ (by decide) (by decide),
          map_fold_getCol_of_notMem floatCoerceVal floatCols _ (by decide),
          map_fold_getCol_of_notMem intCoerceVal intCols _ (by decide),
          ensure_default_of_unresolved df dc "Planned Details" (Value.vStr "") hfind (by decide) (by decide) (by
            intro p hp hps
            simp only [renamePlan, List.mem_cons, List.not_mem_nil, or_false] at hp
            rcases hp with h|h|h|h|h|h|h|h|h|h <;> subst h <;>
              first
                | exact hfind
                | exact absurd hps (by simp))]
      simp only [Option.map, List.map_replicate]
      rfl
    · intro hfind
      rw [map_fold_getCol_of_mem strCoerceVal strCols _ (by decide) (by decide),
          map_fold_getCol_of_notMem floatCoerceVal floatCols _ (by decide),
          map_fold_getCol_of_notMem intCoerceVal intCols _ (by decide),
          ensure_default_of_unresolved df dc "Actual Details" (Value.vStr "") hfind (by decide) (by decide) (by
            intro p hp hps
            simp only [renamePlan, List.mem_cons, List.not_mem_nil, or_false] at hp
            rcases hp with h|h|h|h|h|h|h|h|h|h <;> subst h <;>
              first
                | exact hfind
                | exact absurd hps (by simp))]
      simp only [Option.map, List.map_replicate]
      rfl

/-- C7 (witness): a sheet with no date-like column is rejected with the
schema error (by normalization and by the whole pipeline), while a
date-only sheet normalizes fine and its unresolved `Subcategory` and
`Planned LI` get their defaults. -/
theorem normalize_schema_date_mandatory_witness :
    normalize_schema noDateDf
      = .error "No column containing 'date' found. Please include a Date column."
  ∧ run_report sp0 noDateDf 0
      = .error "No column containing 'date' found. Please include a Date column."
  ∧ ∃ out, normalize_schema dateOnlyDf = .ok out
      ∧ getCol out "Subcategory" = some ⟨"Subcategory", [Value.vStr ""]⟩
      ∧ getCol out "Planned LI" = some ⟨"Planned LI", [Value.vNum 0]⟩ := by
  have h1 := (normalize_schema_date_mandatory noDateDf).1 (by decide)
  obtain ⟨out, hok, hcat, hsub, hline, hpli, hali, hpe, hae, hpd, had⟩ :=
    (normalize_schema_date_mandatory dateOnlyDf).2 "Date" (by decide)
  refine ⟨h1.1, h1.2 sp0 0, out, hok, ?_, ?_⟩
  · rw [hsub (by decide)]
    rfl
  · rw [hpli (by decide)]
    rfl

/-- C3: once the schema is normalized, if *no* cell of the `Date` column
parses, the upload is rejected with the date error before any filtering,
aggregation or delivery runs (the whole pipeline returns that error); if at
least one cell parses, the date stage succeeds, the surviving `Date_only`
column holds exactly the parsable dates in order, every column keeps exactly
the rows whose date parsed, and the full pipeline completes without any
error surfacing. -/
theorem run_report_date_error_vs_row_drop (sp : StrDateParse) (df0 df : Frame) (dcol : Col) (today : Int)
    (hn : normalize_schema df0 = .ok df)
    (hd : getCol df "Date" = some dcol)
    (hLen : ∀ c ∈ df, c.cells.length = dcol.cells.length) :
    ((dcol.cells.all fun v => (parse_any_date sp v).isNone) = true →
        process_dates sp df = .error "No parsable dates found in 'Date' column"
      ∧ run_report sp df0 today = .error "No parsable dates found in 'Date' column")
  ∧ ((dcol.cells.all fun v => (parse_any_date sp v).isNone) = false →
        ∃ dated, process_dates sp df = .ok dated
          ∧ getCol dated "Date_only" = some ⟨"Date_only",
              (dcol.cells.filterMap (parse_any_date sp)).map (fun d => Value.vDate d 0)⟩
          ∧ (∀ c ∈ dated, c.cells.length
              = dcol.cells.countP (fun v => (parse_any_date sp v).isSome))
          ∧ ∃ r, run_report sp df0 today = .ok r) := by
  have hcond : ((dcol.cells.map (parse_any_date sp)).all fun o => o.isNone)
      = (dcol.cells.all fun v => (parse_any_date sp v).isNone) := by
    induction dcol.cells with
    | nil => rfl
    | cons x xs ih => simp [ih]
  constructor
  · intro hall
    have hperr : process_dates sp df = .error "No parsable dates found in 'Date' column" := by
      rw [process_dates_eq sp df dcol hd, hcond, hall, if_pos rfl]
    refine ⟨hperr, ?_⟩
    simp only [run_report, hn, hperr, Except.bind, bind]
  · intro hall
    have hne : ¬(((dcol.cells.map (parse_any_date sp)).all fun o => o.isNone) = true) := by
      rw [hcond, hall]
      simp
    have hpok : process_dates sp df = .ok
        ((setCol (setCol df "Date_parsed"
            ((dcol.cells.map (parse_any_date sp)).map optDateVal)) "Date_only"
            ((dcol.cells.map (parse_any_date sp)).map optDateVal)).map
          (fun c => ⟨c.name,
            maskFilter ((dcol.cells.map (parse_any_date sp)).map (·.isSome)) c.cells⟩)) := by
      rw [process_dates_eq sp df dcol hd, if_neg hne]
    refine ⟨_, hpok, ?_, ?_, ?_⟩
    · rw [getCol_cellMap, getCol_setCol_self]
      simp only [Option.map]
      rw [maskFilter_map_isSome]
      congr 1
      rw [List.filterMap_map]
      simp [Function.comp]
    · intro c hc
      simp only [List.mem_map] at hc
      obtain ⟨c0, hc0, e⟩ := hc
      subst e
      simp only
      have hlen0 : c0.cells.length = dcol.cells.length := by
        have hstep1 := setCol_length_inv (L := dcol.cells.length) hLen
          "Date_parsed" ((dcol.cells.map (parse_any_date sp)).map optDateVal)
          (by simp)
        have hstep2 := setCol_length_inv (L := dcol.cells.length) hstep1
          "Date_only" ((dcol.cells.map (parse_any_date sp)).map optDateVal)
          (by simp)
        exact hstep2 c0 hc0
      rw [maskFilter_length _ _ (by simp [hlen0])]
      simp only [List.countP_map]
      congr 1
    · -- run_report succeeds
      have hdatedHas : ∀ n ∈ schemaDefaults.map Prod.fst,
          hasCol ((setCol (setCol df "Date_parsed"
            ((dcol.cells.map (parse_any_date sp)).map optDateVal)) "Date_only"
            ((dcol.cells.map (parse_any_date sp)).map optDateVal)).map
          (fun c => ⟨c.name,
            maskFilter ((dcol.cells.map (parse_any_date sp)).map (·.isSome)) c.cells⟩)) n
            = true :=
        fun n hn' => process_dates_hasCol hd hpok (normalize_schema_hasCol hn hn')
      have hDO := process_dates_hasDateOnly hd hpok
      obtain ⟨cur, hcur⟩ := filterWindow_ok (w := (get_week_ranges today).1) hDO
      obtain ⟨nxt, hnxt⟩ := filterWindow_ok (w := (get_week_ranges today).2) hDO
      have hcurHas : ∀ n ∈ schemaDefaults.map Prod.fst, hasCol cur n = true :=
        fun n hn' => filterWindow_hasCol hcur (hdatedHas n hn')
      obtain ⟨curStats, hcs⟩ := current_week_rows_ok
        (hcurHas "Planned LI" (by decide)) (hcurHas "Actual LI" (by decide))
        (hcurHas "Planned Efforts (mins)" (by decide))
        (hcurHas "Actual Efforts (mins)" (by decide))
      obtain ⟨dev, hdev⟩ := deviation_summary_ok
        (hcurHas "Category" (by decide)) (hcurHas "Subcategory" (by decide))
        (hcurHas "Line Item" (by decide))
        (hcurHas "Planned LI" (by decide)) (hcurHas "Actual LI" (by decide))
        (hcurHas "Planned Efforts (mins)" (by decide))
        (hcurHas "Actual Efforts (mins)" (by decide))
      refine ⟨(curStats, next_week_rows nxt, dev), ?_⟩
      simp only [run_report, hn, hpok, hcur, hnxt, hcs, hdev, Except.bind, bind]
      rfl

/-- C3 (witness): an all-unparseable sheet (under `sp0`) is rejected with
the date error, while the sheet with five valid dates and one malformed date
string keeps exactly the five valid rows — the surviving `Date_only` column
lists their five dates — and the whole pipeline returns a success. -/
theorem run_report_date_error_vs_row_drop_witness :
    run_report sp0 allBadDf 20400 = .error "No parsable dates found in 'Date' column"
  ∧ ∃ dated, process_dates sp0 mixedNorm = .ok dated
      ∧ getCol dated "Date_only" = some ⟨"Date_only",
          [Value.vDate 20400 0, Value.vDate 20401 0, Value.vDate 20402 0,
           Value.vDate 19431 0, Value.vDate 20409 0]⟩
      ∧ (∀ c ∈ dated, c.cells.length = 5)
      ∧ ∃ r, run_report sp0 mixedDf 20400 = .ok r := by
  constructor
  · exact ((run_report_date_error_vs_row_drop sp0 allBadDf allBadNorm
      ⟨"Date", [.vStr "??", .vNaN]⟩ 20400 (by decide) (by decide) (by decide)).1
        (by decide)).2
  · obtain ⟨dated, h1, h2, h3, h4⟩ :=
      (run_report_date_error_vs_row_drop sp0 mixedDf mixedNorm
        ⟨"Date", [.vDate 20400 0, .vDate 20401 0, .vStr "not-a-date",
                  .vDate 20402 0, .vNum 45000, .vDate 20409 0]⟩ 20400
        (by decide) (by decide) (by decide)).2 (by decide)
    exact ⟨dated, h1, h2.trans (by decide), fun c hc => (h3 c hc).trans (by decide), h4⟩
